import Mathlib

/-!
Shallow embedding of the PdfPilot violation-detection and case-aggregation
pipeline (src/violation_detector.py, src/case_manager.py, src/legal_analyzer.py)
together with proofs settling the frozen claims about it.

Python strings are modelled as `List Char` (one entry per code point, which is
exactly Python's indexing/slicing unit); dicts that the code builds by insertion
are modelled as association lists in insertion order; Python sets that the code
only ever grows and converts to lists are modelled as first-occurrence
deduplicated lists.
-/

/-- Python's notion of whitespace for `str.strip` and the regex class `\s`,
restricted to the ASCII range (all texts the pipeline handles are ASCII). -/
def pyIsWs (c : Char) : Bool :=
  c == ' ' || c == '\t' || c == '\n' || c == '\r' || c == '\x0b' || c == '\x0c'

/-- `str.strip()`: drop whitespace from both ends. -/
def pyStrip (s : List Char) : List Char :=
  ((s.dropWhile pyIsWs).reverse.dropWhile pyIsWs).reverse

/-- `str.lower()` (ASCII case folding, which covers all pattern characters). -/
def pyLower (s : List Char) : List Char := s.map Char.toLower

/-- Python's substring test `needle in haystack`: some contiguous slice equals
the needle. -/
def containsSub (haystack needle : List Char) : Bool :=
  (List.range (haystack.length + 1)).any
    (fun i => (haystack.drop i).take needle.length == needle)

/-- Helper for `pydedup`, carrying the elements seen so far. -/
def pydedupAux (seen : List String) : List String → List String
  | [] => []
  | x :: xs =>
    if seen.contains x then pydedupAux seen xs
    else x :: pydedupAux (x :: seen) xs

/-- First-occurrence deduplication: the member list of a Python set built by
inserting the given elements in order (modulo Python's unspecified set
iteration order, which the claims never depend on beyond membership). -/
def pydedup (l : List String) : List String := pydedupAux [] l

/-!
## Regular expressions

The violation pattern tables of `ViolationDetector.__init__` use only these
regex constructs: literal characters, `\s+`, `c?` on a single character and
`(?:...)?` on a group.  `Rx` covers exactly those; matching enumerates
remainders in Python's backtracking order (greedy first), so the head of the
enumeration is the match Python's engine commits to.
-/

inductive Rx where
  | eps
  | lit (c : Char)
  | ws
  | opt (r : Rx)
  | cat (a b : Rx)
deriving Repr, DecidableEq

/-- Remainders after consuming one-or-more leading whitespace characters
(`\s+`), longest consumption first (greedy). -/
def wsRuns (s : List Char) : List (List Char) :=
  let k := (s.takeWhile pyIsWs).length
  (List.range k).map (fun i => s.drop (k - i))

/-- All remainders of matching `r` against a prefix of `s`, in Python's
backtracking preference order (greedy alternatives first). -/
def rxRuns : Rx → List Char → List (List Char)
  | .eps, s => [s]
  | .lit _, [] => []
  | .lit c, x :: xs => if x == c then [xs] else []
  | .ws, s => wsRuns s
  | .opt r, s => rxRuns r s ++ [s]
  | .cat a b, s => (rxRuns a s).flatMap (rxRuns b)

/-- The length of the match Python's engine produces for `r` anchored at the
start of `s` (the first remainder in backtracking order), if any. -/
def rxMatchLen (r : Rx) (s : List Char) : Option Nat :=
  match rxRuns r s with
  | [] => none
  | rem :: _ => some (s.length - rem.length)

/-- `re.finditer` span enumeration: scan left to right, at each position take
the engine's match if one exists, and resume after its end (one past it for an
empty match, as Python does). Spans are `(start, end)` index pairs.  The `fuel`
argument only bounds the recursion structurally; every step consumes at least
one character, so fuel `s.length + 1` never runs out. -/
def findIterGo (r : Rx) : Nat → Nat → List Char → List (Nat × Nat)
  | 0, _, _ => []
  | _ + 1, pos, [] =>
    match rxMatchLen r [] with
    | some _ => [(pos, pos)]
    | none => []
  | fuel + 1, pos, c :: cs =>
    match rxMatchLen r (c :: cs) with
    | none => findIterGo r fuel (pos + 1) cs
    | some 0 => (pos, pos) :: findIterGo r fuel (pos + 1) cs
    | some (l + 1) => (pos, pos + l + 1) :: findIterGo r fuel (pos + l + 1) (cs.drop l)

/-- All `re.finditer` match spans of `r` in `s`. -/
def findIter (r : Rx) (s : List Char) : List (Nat × Nat) :=
  findIterGo r (s.length + 1) 0 s

/-- Concatenation of a character sequence as a regex (a literal word). -/
def rxLit (s : String) : Rx := s.toList.foldr (fun c r => Rx.cat (Rx.lit c) r) Rx.eps

/-- Sequential composition of a list of regexes. -/
def rxSeq (l : List Rx) : Rx := l.foldr Rx.cat Rx.eps

/-- Words joined by `\s+`, the shape of almost every pattern in the tables. -/
def rxWords (l : List String) : Rx := rxSeq (List.intersperse Rx.ws (l.map rxLit))

/-!
## ViolationDetector (src/violation_detector.py)
-/

/-- One entry of a violation pattern table: regex list, severity tag,
description. -/
structure PatternInfo where
  patterns : List Rx
  severity : String
  description : String
deriving Repr, DecidableEq

/-- A detected violation record (`detect_violations` output dict). -/
structure Violation where
  vtype : String
  description : String
  severity : String
  context : String
  pattern_matched : String
  pos_start : Nat
  pos_end : Nat
  severity_score : Nat
deriving Repr, DecidableEq

/-- `self.violation_patterns`: the general violation table, in insertion
order. -/
def violation_patterns : List (String × PatternInfo) := [
  ("constitutional_violation",
   { patterns := [rxWords ["constitutional", "violation"],
                  rxWords ["fourteenth", "amendment", "violation"],
                  rxWords ["due", "process", "violation"],
                  rxWords ["equal", "protection", "violation"]],
     severity := "high", description := "Constitutional rights violation" }),
  ("removal_without_court_order",
   { patterns := [rxSeq [rxLit "remove", Rx.opt (Rx.lit 'd'), Rx.ws,
                         rxLit "without", Rx.ws,
                         Rx.opt (rxSeq [rxLit "court", Rx.ws]), rxLit "order"],
                  rxWords ["emergency", "removal", "without", "hearing"],
                  rxWords ["taken", "into", "custody", "without", "warrant"]],
     severity := "high",
     description := "Child removed without proper court authorization" }),
  ("due_process_denial",
   { patterns := [rxSeq [rxLit "denied", Rx.ws,
                         Rx.opt (rxSeq [rxLit "due", Rx.ws]), rxLit "process"],
                  rxWords ["no", "notice", "provided"],
                  rxWords ["insufficient", "notice"],
                  rxWords ["ex", "parte", "proceeding"]],
     severity := "high", description := "Due process rights denied" }),
  ("delayed_icpc",
   { patterns := [rxWords ["icpc", "delay"],
                  rxWords ["interstate", "compact", "violation"],
                  rxWords ["delayed", "placement", "approval"],
                  rxWords ["icpc", "not", "completed"]],
     severity := "medium",
     description := "Delayed ICPC processing affecting placement" }),
  ("missed_hearing",
   { patterns := [rxWords ["hearing", "not", "held"],
                  rxWords ["missed", "hearing"],
                  rxWords ["hearing", "postponed", "repeatedly"],
                  rxWords ["no", "permanency", "hearing"]],
     severity := "medium",
     description := "Required hearings missed or delayed" }),
  ("inadequate_reunification",
   { patterns := [rxSeq [rxLit "no", Rx.ws, rxLit "reunification", Rx.ws,
                         rxLit "effort", Rx.opt (Rx.lit 's')],
                  rxWords ["insufficient", "reunification"],
                  rxWords ["failed", "to", "provide", "services"],
                  rxWords ["reunification", "not", "attempted"]],
     severity := "medium",
     description := "Inadequate or missing reunification efforts" }),
  ("procedural_error",
   { patterns := [rxWords ["procedural", "error"],
                  rxWords ["improper", "procedure"],
                  rxWords ["failed", "to", "follow", "protocol"],
                  rxWords ["statutory", "violation"]],
     severity := "medium",
     description := "Procedural or statutory requirements not followed" }),
  ("documentation_error",
   { patterns := [rxWords ["missing", "documentation"],
                  rxWords ["incomplete", "records"],
                  rxWords ["filing", "error"],
                  rxWords ["administrative", "error"]],
     severity := "low",
     description := "Documentation or administrative errors" }),
  ("timeline_violation",
   { patterns := [rxWords ["deadline", "missed"],
                  rxWords ["untimely", "filing"],
                  rxWords ["late", "submission"],
                  rxWords ["time", "limit", "exceeded"]],
     severity := "low", description := "Timeline or deadline violations" })]

/-- `self.cps_violations`. -/
def cps_violations : List (String × PatternInfo) := [
  ("safety_plan_violation",
   { patterns := [rxWords ["safety", "plan", "not", "followed"],
                  rxWords ["violated", "safety", "plan"],
                  rxWords ["safety", "plan", "breach"]],
     severity := "high", description := "Safety plan violations" }),
  ("visitation_denial",
   { patterns := [rxWords ["visitation", "denied"],
                  rxWords ["denied", "access", "to", "child"],
                  rxWords ["supervised", "visitation", "cancelled"],
                  rxWords ["no", "visitation", "allowed"]],
     severity := "medium",
     description := "Improper denial of parent-child contact" }),
  ("case_plan_violation",
   { patterns := [rxWords ["case", "plan", "not", "followed"],
                  rxWords ["isp", "violation"],
                  rxWords ["service", "plan", "breach"],
                  rxWords ["treatment", "plan", "ignored"]],
     severity := "medium",
     description := "Case plan or ISP requirements not met" })]

/-- `self.family_court_violations`. -/
def family_court_violations : List (String × PatternInfo) := [
  ("custody_order_violation",
   { patterns := [rxWords ["custody", "order", "violated"],
                  rxWords ["parenting", "time", "denied"],
                  rxWords ["contempt", "of", "court"],
                  rxWords ["order", "not", "followed"]],
     severity := "medium",
     description := "Court custody orders not followed" }),
  ("judicial_bias",
   { patterns := [rxWords ["judicial", "bias"],
                  rxWords ["prejudiced", "judge"],
                  rxWords ["biased", "ruling"],
                  rxWords ["conflict", "of", "interest"]],
     severity := "high",
     description := "Evidence of judicial bias or conflict" })]

/-- `_get_severity_score`: `{'high': 3, 'medium': 2, 'low': 1}.get(severity, 1)`. -/
def get_severity_score (severity : String) : Nat :=
  (([("high", 3), ("medium", 2), ("low", 1)].find?
      (fun p => p.1 == severity)).map (fun p => p.2)).getD 1

/-- The pattern table `detect_violations` scans: the general table, extended by
the CPS table and/or the family-court table when the document-type hint or the
lowercased text triggers them (`dict.update` appends, since the key sets are
disjoint). -/
def allPatternTables (textLower : List Char) (document_type : String) :
    List (String × PatternInfo) :=
  violation_patterns
    ++ (if containsSub (pyLower document_type.toList) "cps".toList
          || containsSub textLower "cps".toList
          || containsSub textLower "child protective".toList
          || containsSub textLower "dhr".toList
        then cps_violations else [])
    ++ (if containsSub (pyLower document_type.toList) "custody".toList
          || containsSub textLower "family court".toList
        then family_court_violations else [])

/-- The violation record built for one regex match span `(s, e)`: context is
the 100-characters-each-side window of the original text, stripped;
`pattern_matched` is the matched slice of the lowercased text. -/
def mkViolation (textC : List Char) (vtype : String) (info : PatternInfo)
    (s e : Nat) : Violation :=
  { vtype := vtype
    description := info.description
    severity := info.severity
    context := String.mk (pyStrip ((textC.take (min textC.length (e + 100))).drop (s - 100)))
    pattern_matched := String.mk (((pyLower textC).take e).drop s)
    pos_start := s
    pos_end := e
    severity_score := get_severity_score info.severity }

/-- The violation list `detect_violations` accumulates before deduplication and
sorting: all pattern tables, all patterns, all `finditer` matches, in loop
order. -/
def emitViolations (textC : List Char) (tables : List (String × PatternInfo)) :
    List Violation :=
  tables.flatMap (fun ti =>
    ti.2.patterns.flatMap (fun pat =>
      (findIter pat (pyLower textC)).map (fun se =>
        mkViolation textC ti.1 ti.2 se.1 se.2)))

/-- The deduplication key: `f"{violation['type']}_{violation['context'][:50]}"`. -/
def dedupKey (v : Violation) : String :=
  v.vtype ++ "_" ++ String.mk (v.context.toList.take 50)

/-- `_deduplicate_violations` loop with its `seen` set made explicit. -/
def deduplicateAux (seen : List String) : List Violation → List Violation
  | [] => []
  | v :: vs =>
    if dedupKey v ∈ seen then deduplicateAux seen vs
    else v :: deduplicateAux (dedupKey v :: seen) vs

/-- `_deduplicate_violations`: keep the first violation for each
(type, first 50 context characters) key. -/
def deduplicate_violations (vs : List Violation) : List Violation :=
  deduplicateAux [] vs

/-- Stable insertion of a violation after every element of at least its
severity score (the effect Python's stable `list.sort(key=..., reverse=True)`
has on each element). -/
def insertc (v : Violation) : List Violation → List Violation
  | [] => [v]
  | x :: xs =>
    if x.severity_score < v.severity_score then v :: x :: xs
    else x :: insertc v xs

/-- `violations.sort(key=lambda x: x['severity_score'], reverse=True)`:
a stable descending sort by severity score. -/
def sortByScoreDesc (l : List Violation) : List Violation :=
  l.foldl (fun acc v => insertc v acc) []

/-- `detect_violations(text, document_type)`. -/
def detect_violations (text : String) (document_type : String) : List Violation :=
  let textC := text.toList
  let textLower := pyLower textC
  sortByScoreDesc (deduplicate_violations
    (emitViolations textC (allPatternTables textLower document_type)))

/-!
## Dates (`datetime.strptime` as used by `CaseManager._parse_date`, plus the
day arithmetic `analyze_timeline_violations` needs)
-/

/-- A `datetime.datetime` at midnight, which is all `_parse_date` ever
produces. -/
structure PyDate where
  year : Nat
  month : Nat
  day : Nat
deriving Repr, DecidableEq

/-- Gregorian leap year test (`calendar.isleap`, used by `datetime`'s day
validation). -/
def isLeap (y : Nat) : Bool := y % 4 == 0 && (y % 100 != 0 || y % 400 == 0)

/-- Number of days in a month. -/
def daysInMonth (y m : Nat) : Nat :=
  if m == 2 then (if isLeap y then 29 else 28)
  else ([31, 31, 28, 31, 30, 31, 30, 31, 31, 30, 31, 30, 31].getD m 31)

/-- `datetime(year, month, day)`: `none` models the `ValueError` the
constructor raises on an out-of-range date (which `_parse_date` swallows,
moving on to the next format). -/
def mkDatetime (y m d : Nat) : Option PyDate :=
  if 1 ≤ y && y ≤ 9999 && 1 ≤ m && m ≤ 12 && 1 ≤ d && d ≤ daysInMonth y m
  then some ⟨y, m, d⟩ else none

/-- Cumulative day counts before each month in a non-leap year. -/
def cumMonthDays (m : Nat) : Nat :=
  [0, 0, 31, 59, 90, 120, 151, 181, 212, 243, 273, 304, 334].getD m 334

/-- Proleptic-Gregorian day number (`datetime.toordinal`): subtracting two
dates in Python yields a `timedelta` whose `.days` is the difference of these
ordinals. -/
def toOrdinal (dt : PyDate) : Nat :=
  365 * (dt.year - 1) + (dt.year - 1) / 4 - (dt.year - 1) / 100 + (dt.year - 1) / 400
    + cumMonthDays dt.month
    + (if dt.month > 2 && isLeap dt.year then 1 else 0)
    + dt.day

/-- `datetime` comparison (chronological order). -/
def pyDateLe (a b : PyDate) : Bool := toOrdinal a ≤ toOrdinal b

/-- Tokens of the `strptime` format strings `_parse_date` uses: literal
characters, whitespace runs, and the directives `%m` `%d` `%Y` `%y` `%B`
`%b`. -/
inductive FTok where
  | lit (c : Char)
  | wsT
  | monthNum
  | dayNum
  | year4
  | year2
  | monthFull
  | monthAbbr
deriving Repr, DecidableEq

/-- Partial `strptime` result; `strptime`'s defaults are year 1900,
month 1, day 1 (every format here overwrites all three). -/
structure PAcc where
  y : Nat := 1900
  m : Nat := 1
  d : Nat := 1
deriving Repr, DecidableEq

/-- Numeric value of a digit character. -/
def dv (c : Char) : Nat := c.toNat - '0'.toNat

/-- Candidates for `%m`, whose `strptime` regex is `1[0-2]|0[1-9]|[1-9]`,
in alternation (backtracking) order. -/
def monthNumCands : List Char → List (Nat × List Char)
  | a :: b :: rest =>
    (if a == '1' && '0' ≤ b && b ≤ '2' then [(10 + dv b, rest)] else [])
      ++ (if a == '0' && '1' ≤ b && b ≤ '9' then [(dv b, rest)] else [])
      ++ (if '1' ≤ a && a ≤ '9' then [(dv a, b :: rest)] else [])
  | [a] => if '1' ≤ a && a ≤ '9' then [(dv a, [])] else []
  | [] => []

/-- Candidates for `%d`, regex `3[01]|[12]\d|0[1-9]|[1-9]|\s[1-9]` (the last
alternative allows a space-padded day), in alternation order. -/
def dayNumCands : List Char → List (Nat × List Char)
  | a :: b :: rest =>
    (if a == '3' && ('0' ≤ b && b ≤ '1') then [(30 + dv b, rest)] else [])
      ++ (if ('1' ≤ a && a ≤ '2') && b.isDigit then [(10 * dv a + dv b, rest)] else [])
      ++ (if a == '0' && '1' ≤ b && b ≤ '9' then [(dv b, rest)] else [])
      ++ (if '1' ≤ a && a ≤ '9' then [(dv a, b :: rest)] else [])
      ++ (if a == ' ' && '1' ≤ b && b ≤ '9' then [(dv b, rest)] else [])
  | [a] => if '1' ≤ a && a ≤ '9' then [(dv a, [])] else []
  | [] => []

/-- Candidates for `%Y`, regex `\d\d\d\d`. -/
def year4Cands : List Char → List (Nat × List Char)
  | a :: b :: c :: d :: rest =>
    if a.isDigit && b.isDigit && c.isDigit && d.isDigit
    then [(1000 * dv a + 100 * dv b + 10 * dv c + dv d, rest)] else []
  | _ => []

/-- Candidates for `%y`, regex `\d\d`, with `strptime`'s century rule
(00–68 → 2000s, 69–99 → 1900s). -/
def year2Cands : List Char → List (Nat × List Char)
  | a :: b :: rest =>
    if a.isDigit && b.isDigit
    then [(if 10 * dv a + dv b ≤ 68 then 2000 + 10 * dv a + dv b
           else 1900 + 10 * dv a + dv b, rest)]
    else []
  | _ => []

/-- English month names in calendar order. -/
def monthNames : List String :=
  ["january", "february", "march", "april", "may", "june", "july",
   "august", "september", "october", "november", "december"]

/-- Month-name alternatives for `%B` in `strptime`'s regex order (sorted by
length descending, stable), paired with their month numbers. -/
def monthFullAlts : List (String × Nat) :=
  [("september", 9), ("february", 2), ("november", 11), ("december", 12),
   ("january", 1), ("october", 10), ("august", 8), ("march", 3), ("april", 4),
   ("june", 6), ("july", 7), ("may", 5)]

/-- Abbreviated month-name alternatives for `%b` (all of length 3, so the
length-sort keeps calendar order). -/
def monthAbbrAlts : List (String × Nat) :=
  [("jan", 1), ("feb", 2), ("mar", 3), ("apr", 4), ("may", 5), ("jun", 6),
   ("jul", 7), ("aug", 8), ("sep", 9), ("oct", 10), ("nov", 11), ("dec", 12)]

/-- Candidates for a month-name directive: the alternatives whose (case-folded)
text is the next slice of the input, in regex alternation order. -/
def monthNameCands (alts : List (String × Nat)) (s : List Char) :
    List (Nat × List Char) :=
  alts.filterMap (fun alt =>
    if pyLower (s.take alt.1.length) == alt.1.toList
    then some (alt.2, s.drop alt.1.length) else none)

/-- One `strptime` token against the input: every `(accumulated fields,
remainder)` continuation, in backtracking order. -/
def runFTok : FTok → PAcc × List Char → List (PAcc × List Char)
  | .lit c, (acc, x :: xs) => if x == c then [(acc, xs)] else []
  | .lit _, (_, []) => []
  | .wsT, (acc, s) => (wsRuns s).map (fun rem => (acc, rem))
  | .monthNum, (acc, s) => (monthNumCands s).map (fun p => ({ acc with m := p.1 }, p.2))
  | .dayNum, (acc, s) => (dayNumCands s).map (fun p => ({ acc with d := p.1 }, p.2))
  | .year4, (acc, s) => (year4Cands s).map (fun p => ({ acc with y := p.1 }, p.2))
  | .year2, (acc, s) => (year2Cands s).map (fun p => ({ acc with y := p.1 }, p.2))
  | .monthFull, (acc, s) => (monthNameCands monthFullAlts s).map (fun p => ({ acc with m := p.1 }, p.2))
  | .monthAbbr, (acc, s) => (monthNameCands monthAbbrAlts s).map (fun p => ({ acc with m := p.1 }, p.2))

/-- A whole format against the input, threading the backtracking
enumeration. -/
def runFormat (fmt : List FTok) (s : List Char) : List (PAcc × List Char) :=
  fmt.foldl (fun states tok => states.flatMap (runFTok tok)) [({}, s)]

/-- `datetime.strptime(s, fmt)` as `_parse_date` uses it: the whole input must
be consumed, the first full parse in backtracking order wins, and the parsed
fields must form a real calendar date (otherwise `ValueError`, i.e. `none`). -/
def strptime (fmt : List FTok) (s : List Char) : Option PyDate :=
  match (runFormat fmt s).filter (fun st => st.2.isEmpty) with
  | [] => none
  | (acc, _) :: _ => mkDatetime acc.y acc.m acc.d

/-- The `date_formats` list of `_parse_date`, in source order:
`%m/%d/%Y, %m-%d-%Y, %m/%d/%y, %m-%d-%y, %B %d, %Y, %b %d, %Y, %B %d %Y,
%b %d %Y, %Y-%m-%d, %d/%m/%Y, %d-%m-%Y`. -/
def date_formats : List (List FTok) := [
  [.monthNum, .lit '/', .dayNum, .lit '/', .year4],
  [.monthNum, .lit '-', .dayNum, .lit '-', .year4],
  [.monthNum, .lit '/', .dayNum, .lit '/', .year2],
  [.monthNum, .lit '-', .dayNum, .lit '-', .year2],
  [.monthFull, .wsT, .dayNum, .lit ',', .wsT, .year4],
  [.monthAbbr, .wsT, .dayNum, .lit ',', .wsT, .year4],
  [.monthFull, .wsT, .dayNum, .wsT, .year4],
  [.monthAbbr, .wsT, .dayNum, .wsT, .year4],
  [.year4, .lit '-', .monthNum, .lit '-', .dayNum],
  [.dayNum, .lit '/', .monthNum, .lit '/', .year4],
  [.dayNum, .lit '-', .monthNum, .lit '-', .year4]]

/-- `CaseManager._parse_date`: strip the input, try each format in order,
return the first success; `None` when every format fails. -/
def parse_date (date_str : String) : Option PyDate :=
  date_formats.findSome? (fun fmt => strptime fmt (pyStrip date_str.toList))

/-!
## Case model (src/case_manager.py)

Python dicts are association lists in key-insertion order; `d[k] = v` keeps an
existing key's position and appends a new key at the end, exactly as CPython's
dicts do.
-/

/-- Dict lookup `m.get(k)` / `m[k]`. -/
def alookup {α : Type} : List (String × α) → String → Option α
  | [], _ => none
  | p :: ps, k => if p.1 == k then some p.2 else alookup ps k

/-- Dict assignment `m[k] = v`. -/
def aset {α : Type} (m : List (String × α)) (k : String) (v : α) :
    List (String × α) :=
  if m.any (fun p => p.1 == k) then m.map (fun p => if p.1 == k then (k, v) else p)
  else m ++ [(k, v)]

/-- A case-level entity value: a Python `set` while the case lives in memory,
degraded to a plain `list` by serialization preparation.  Both carry their
elements in insertion order. -/
inductive EntVal where
  | evSet (l : List String)
  | evList (l : List String)
deriving Repr, DecidableEq

/-- The membership carrier of an entity value. -/
def EntVal.elems : EntVal → List String
  | .evSet l => l
  | .evList l => l

/-- `set.update(values)`: insert each value not already present, in order. -/
def pySetUpdate (s values : List String) : List String :=
  values.foldl (fun acc v => if acc.contains v then acc else acc ++ [v]) s

/-- A violation dict as stored on a case: `add_document_to_case` stamps
`document_hash` and `document_name` onto it; `severity` is read with a
`'low'` default by `track_repeat_actors`; all other keys are opaque to the
case manager and modelled by `detail`. -/
structure CViol where
  severity : Option String
  detail : String
  document_hash : String
  document_name : String
deriving Repr, DecidableEq

/-- The slice of a per-document `legal_analysis` dict the case manager reads.
`Option` fields model possibly-missing keys (`'legal_entities' in ...`,
`.get('document_type', {}).get('type', 'unknown')`,
`'potential_violations' in ...`). -/
structure LegalAnalysis where
  legal_entities : Option (List (String × List String))
  document_type : Option String
  potential_violations : Option (List CViol)
deriving Repr, DecidableEq

/-- A document entry of `case_data['documents']` (the stored
`document_analysis` payload is opaque to every claim and omitted;
`filename` is `document_analysis.get('filename', 'Unknown')`). -/
structure DocRecord where
  pdf_hash : String
  upload_date : String
  filename : String
  legal_analysis : LegalAnalysis
deriving Repr, DecidableEq

/-- `document_type.get('type', 'unknown')` at case level. -/
def docTypeOf (d : DocRecord) : String :=
  d.legal_analysis.document_type.getD "unknown"

/-- A timeline event built by `generate_timeline`. -/
structure TEvent where
  date : Option PyDate
  date_str : String
  document : String
  document_hash : String
  document_type : String
  context : String
deriving Repr, DecidableEq

/-- A contradiction record emitted by `detect_contradictions`. -/
structure Contradiction where
  ctype : String
  severity : String
  description : String
  documents : List String
  case_number : String
deriving Repr, DecidableEq

/-- An actor-tracking record (`documents` is a Python set until the final
list conversion; both are an insertion-ordered deduplicated list here). -/
structure ActorRec where
  atype : String
  violations : List CViol
  documents : List String
  severity_score : Nat
deriving Repr, DecidableEq

/-- The case session dict created by `create_case_session`. -/
structure Case where
  case_id : String
  case_name : String
  created_date : String
  documents : List (String × DocRecord)
  timeline : List TEvent
  entities : List (String × EntVal)
  violations : List CViol
  contradictions : List Contradiction
  actor_tracking : List (String × ActorRec)
  last_updated : String
deriving Repr, DecidableEq

/-- `create_case_session`: the fresh case skeleton.  The `case_id` is an MD5
digest of the name and current time; digest and clock are outside the model,
so both the id and the timestamp are taken as arguments. -/
def create_case_session (case_id case_name now : String) : Case :=
  { case_id := case_id
    case_name := case_name
    created_date := now
    documents := []
    timeline := []
    entities := [("judges", .evSet []), ("attorneys", .evSet []),
                 ("caseworkers", .evSet []), ("children", .evSet []),
                 ("case_numbers", .evSet []), ("courts", .evSet [])]
    violations := []
    contradictions := []
    actor_tracking := []
    last_updated := now }

/-- The entity-merge step of `add_document_to_case`: for each extracted kind,
*only if* the kind is already a key of the case's entity map, union the values
into it (`set.update` when it is still a set, `set(list + values)` when a
previous save degraded it to a list).  Kinds not present in the case map are
skipped. -/
def mergeEntStep (acc : List (String × EntVal)) (kv : String × List String) :
    List (String × EntVal) :=
  match alookup acc kv.1 with
  | none => acc
  | some (.evSet l) => aset acc kv.1 (.evSet (pySetUpdate l kv.2))
  | some (.evList l) => aset acc kv.1 (.evSet (pydedup (l ++ kv.2)))

/-- The whole entity-merge loop. -/
def mergeEntities (ents : List (String × EntVal))
    (extracted : List (String × List String)) : List (String × EntVal) :=
  extracted.foldl mergeEntStep ents

/-- `add_document_to_case(case_data, pdf_hash, document_analysis,
legal_analysis)`; `da_filename` is `document_analysis.get('filename')` and
`now` the ambient clock. -/
def add_document_to_case (c : Case) (pdf_hash : String)
    (da_filename : Option String) (la : LegalAnalysis) (now : String) : Case :=
  let filename := da_filename.getD "Unknown"
  let doc : DocRecord :=
    { pdf_hash := pdf_hash, upload_date := now, filename := filename
      legal_analysis := la }
  { c with
    documents := aset c.documents pdf_hash doc
    entities := match la.legal_entities with
      | none => c.entities
      | some es => mergeEntities c.entities es
    violations := match la.potential_violations with
      | none => c.violations
      | some pv => c.violations
          ++ pv.map (fun v => { v with document_hash := pdf_hash, document_name := filename })
    last_updated := now }

/-- `datetime.min`, the sort key `generate_timeline` substitutes for a falsy
date. -/
def pyDatetimeMin : PyDate := ⟨1, 1, 1⟩

/-- The sort key of `generate_timeline`'s final sort. -/
def tkey (e : TEvent) : Nat := toOrdinal (e.date.getD pyDatetimeMin)

/-- Stable insertion: place `v` after every event dated at or before it (the
effect Python's stable ascending `list.sort` has on each element). -/
def insertAsc (v : TEvent) : List TEvent → List TEvent
  | [] => [v]
  | x :: xs => if tkey v < tkey x then v :: x :: xs else x :: insertAsc v xs

/-- `timeline_events.sort(key=...)`: stable ascending sort by date. -/
def sortTimeline (l : List TEvent) : List TEvent :=
  l.foldl (fun acc v => insertAsc v acc) []

/-- The unsorted event list `generate_timeline` accumulates: one event per
parseable date string of each document's `dates` entities; unparseable strings
contribute nothing. -/
def timelineEventsOf (c : Case) : List TEvent :=
  c.documents.flatMap (fun hd =>
    match hd.2.legal_analysis.legal_entities with
    | none => []
    | some es =>
      match alookup es "dates" with
      | none => []
      | some dates => dates.filterMap (fun ds =>
          (parse_date ds).map (fun pd =>
            { date := some pd
              date_str := ds
              document := hd.2.filename
              document_hash := hd.1
              document_type := docTypeOf hd.2
              context := "Referenced in " ++ hd.2.filename })))

/-- `generate_timeline`: build, sort ascending, replace the case's timeline,
and return the events. -/
def generate_timeline (c : Case) : List TEvent × Case :=
  let evts := sortTimeline (timelineEventsOf c)
  (evts, { c with timeline := evts })

/-- Append-to-group step of the grouping dicts `detect_contradictions` builds
(`if k not in groups: groups[k] = []` followed by `groups[k].append(e)`).
Entries are `(filename, hash)` pairs. -/
def groupAdd (m : List (String × List (String × String))) (k : String)
    (e : String × String) : List (String × List (String × String)) :=
  if m.any (fun p => p.1 == k)
  then m.map (fun p => if p.1 == k then (k, p.2 ++ [e]) else p)
  else m ++ [(k, [e])]

/-- The `(value, (filename, hash))` occurrence stream of one entity kind
across all documents, in document-loop order. -/
def entityOccs (c : Case) (kind : String) : List (String × (String × String)) :=
  c.documents.flatMap (fun hd =>
    match hd.2.legal_analysis.legal_entities with
    | none => []
    | some es =>
      match alookup es kind with
      | none => []
      | some vals => vals.map (fun v => (v, (hd.2.filename, hd.1))))

/-- One of the grouping dicts of `detect_contradictions`: entity values of the
given kind mapped to the documents they occur in. -/
def entityGroups (c : Case) (kind : String) :
    List (String × List (String × String)) :=
  (entityOccs c kind).foldl (fun m p => groupAdd m p.1 p.2) []

/-- `all_dates`, the date grouping `detect_contradictions` builds and then
never reads (scaffolded, emits nothing — kept to mirror the source). -/
def all_dates_groups (c : Case) : List (String × List (String × String)) :=
  entityGroups c "dates"

/-- `documents[hash]` followed by the document-type default chain.  The `none`
branch is unreachable in `detect_contradictions`: every grouped hash was taken
from iterating `documents` itself. -/
def docTypeByHash (c : Case) (h : String) : String :=
  match alookup c.documents h with
  | some d => docTypeOf d
  | none => "unknown"

/-- The loop body of `detect_contradictions`' flagging pass on one grouped
case number: with more than one document entry, flag it iff the (set of)
classified types of those documents has more than one member. -/
def emitContra (c : Case) (g : String × List (String × String)) :
    Option Contradiction :=
  if g.2.length > 1 then
    if (pydedup (g.2.map (fun e => docTypeByHash c e.2))).length > 1 then
      some { ctype := "case_number_inconsistency"
             severity := "medium"
             description := "Case number " ++ g.1
               ++ " appears in documents of different types"
             documents := g.2.map (fun e => e.1)
             case_number := g.1 }
    else none
  else none

/-- The contradiction list of `detect_contradictions`. -/
def contradictionsOf (c : Case) : List Contradiction :=
  (entityGroups c "case_numbers").filterMap (emitContra c)

/-- The `(filename, hash)` entries of the documents carrying a given case
number, in occurrence order — the group `detect_contradictions` builds for
that case number. -/
def caseNumOccs (c : Case) (n : String) : List (String × String) :=
  ((entityOccs c "case_numbers").filter (fun p => p.1 == n)).map (fun p => p.2)

/-- `detect_contradictions`: rebuild the contradiction list from scratch,
store it on the case, return it. -/
def detect_contradictions (c : Case) : List Contradiction × Case :=
  let cs := contradictionsOf c
  (cs, { c with contradictions := cs })

/-- `severity_scores.get(violation.get('severity', 'low'), 1)` inside
`track_repeat_actors` (the same `{high: 3, medium: 2, low: 1}` table). -/
def cviolScore (v : CViol) : Nat := get_severity_score (v.severity.getD "low")

/-- Fold one violation into the actor-tracking map: for each judge name
extracted from the violation's owning document, create the actor record if
absent, append the violation, add the document to the actor's document set,
and add the severity score. -/
def trackStep (c : Case) (track : List (String × ActorRec)) (v : CViol) :
    List (String × ActorRec) :=
  match alookup c.documents v.document_hash with
  | none => track
  | some doc =>
    let judges := match doc.legal_analysis.legal_entities with
      | none => []
      | some es => (alookup es "judge_names").getD []
    judges.foldl (fun tr judge =>
      let r0 := (alookup tr judge).getD
        { atype := "judge", violations := [], documents := [], severity_score := 0 }
      aset tr judge
        { r0 with
          violations := r0.violations ++ [v]
          documents := if r0.documents.contains doc.filename then r0.documents
                       else r0.documents ++ [doc.filename]
          severity_score := r0.severity_score + cviolScore v }) track

/-- The actor-tracking map `track_repeat_actors` rebuilds from scratch out of
`case.violations` (the final set-to-list conversion of each record's
`documents` is the identity on this model's insertion-ordered lists). -/
def actorTrackingOf (c : Case) : List (String × ActorRec) :=
  c.violations.foldl (trackStep c) []

/-- `track_repeat_actors`: rebuild, store on the case, return. -/
def track_repeat_actors (c : Case) : List (String × ActorRec) × Case :=
  let tr := actorTrackingOf c
  (tr, { c with actor_tracking := tr })

/-!
## Serialization (save / load round trip)
-/

/-- `list(value)` applied to a set value by `_prepare_for_serialization`;
list values pass through (`isinstance(value, set)` is false). -/
def entValSerialize : EntVal → EntVal
  | .evSet l => .evList l
  | .evList l => .evList l

/-- `set(value)` applied to a list value by `_prepare_from_serialization`;
set values pass through. -/
def entValDeserialize : EntVal → EntVal
  | .evList l => .evSet (pydedup l)
  | .evSet l => .evSet l

/-- `_prepare_for_serialization`: convert every entity set to a list, in
place. -/
def prepare_for_serialization (c : Case) : Case :=
  { c with entities := c.entities.map (fun p => (p.1, entValSerialize p.2)) }

/-- `_prepare_from_serialization`: convert every entity list back to a set. -/
def prepare_from_serialization (c : Case) : Case :=
  { c with entities := c.entities.map (fun p => (p.1, entValDeserialize p.2)) }

/-- The caller-visible state of the in-memory case after
`save_case_session(case_id, case_data)` returns: `case_data.copy()` is a
*shallow* copy, so `serializable_data['entities']` is the very same dict
object as `case_data['entities']`, and `_prepare_for_serialization`'s in-place
`data['entities'][key] = list(value)` assignments hit the caller's case. -/
def save_case_session_effect (c : Case) : Case :=
  prepare_for_serialization c

/-- Saving then loading a case: `_prepare_for_serialization`, a JSON
dump/load (the identity on the string lists and violation dicts involved),
then `_prepare_from_serialization`. -/
def save_load_roundtrip (c : Case) : Case :=
  prepare_from_serialization (prepare_for_serialization c)

/-!
## DocumentClassifier (src/legal_analyzer.py, analyze_document_type)
-/

/-- `self.document_types`: candidate types and their keyword lists, in
insertion order. -/
def document_types : List (String × List String) := [
  ("petition", ["petition", "complaint", "filing"]),
  ("motion", ["motion", "request", "application"]),
  ("order", ["order", "judgment", "decree", "ruling"]),
  ("pleading", ["answer", "response", "reply", "counter"]),
  ("evidence", ["exhibit", "affidavit", "declaration", "testimony"]),
  ("custody", ["custody", "visitation", "parenting", "child support"]),
  ("cps", ["cps", "child protective", "dhr", "removal", "placement"]),
  ("isp", ["service plan", "case plan", "treatment plan", "goals"])]

/-- `str.count(needle)`: non-overlapping occurrence count, scanning left to
right (the table's needles are never empty, so the empty-needle corner of
Python's `count` does not arise).  `fuel` only bounds the recursion; it starts
at the haystack length. -/
def countOccsGo (n : List Char) : Nat → List Char → Nat
  | _, [] => 0
  | 0, _ => 0
  | fuel + 1, c :: cs =>
    if ((c :: cs).take n.length) == n
    then 1 + countOccsGo n fuel ((c :: cs).drop n.length)
    else countOccsGo n fuel cs

/-- `haystack.count(needle)`. -/
def countOccs (haystack needle : List Char) : Nat :=
  countOccsGo needle haystack.length haystack

/-- A type's score: summed keyword occurrence counts in the lowercased
text. -/
def typeScore (textLower : List Char) (keywords : List String) : Nat :=
  (keywords.map (fun kw => countOccs textLower kw.toList)).sum

/-- `analyze_document_type`'s result dict.  `confidence` is modelled as an
exact rational; the claims only test the values `0` and `1`, on which
Python's float division agrees exactly. -/
structure DocTypeResult where
  dtype : String
  confidence : ℚ
  all_scores : List (String × Nat)
deriving Repr, DecidableEq

/-- The positive-score table `scores` of `analyze_document_type` (types with
zero score are never inserted). -/
def positiveScores (text : String) : List (String × Nat) :=
  document_types.filterMap (fun p =>
    let sc := typeScore (pyLower text.toList) p.2
    if sc > 0 then some (p.1, sc) else none)

/-- `analyze_document_type(text)`: all-zero scores give `{unknown, 0.0}`;
otherwise the first maximal-score type (Python's `max` keeps the first
maximum in dict order) with confidence its score over the total. -/
def analyze_document_type (text : String) : DocTypeResult :=
  match positiveScores text with
  | [] => { dtype := "unknown", confidence := 0, all_scores := [] }
  | s0 :: rest =>
    let primary := rest.foldl (fun best p => if p.2 > best.2 then p else best) s0
    let total : ℕ := ((s0 :: rest).map (fun p => p.2)).sum
    { dtype := primary.1
      confidence := (primary.2 : ℚ) / (total : ℚ)
      all_scores := s0 :: rest }

/-!
## Timeline gap analysis (ViolationDetector.analyze_timeline_violations)
-/

/-- A timeline-gap violation dict. -/
structure GapViolation where
  gtype : String
  severity : String
  severity_score : Nat
  description : String
  context : String
  time_difference : Int
  events : List TEvent
deriving Repr, DecidableEq

/-- One adjacent pair of the loop body: when both dates are present (Python
truthiness: `None` is the only falsy date) and the day difference exceeds 180,
produce the `excessive_delay` violation. -/
def gapOf (prev cur : TEvent) : Option GapViolation :=
  match prev.date, cur.date with
  | some pd, some cd =>
    let diff : Int := (toOrdinal cd : Int) - (toOrdinal pd : Int)
    if diff > 180 then
      some { gtype := "excessive_delay"
             severity := "medium"
             severity_score := 2
             description := "Excessive delay (" ++ toString diff
               ++ " days) between events"
             context := "From " ++ prev.document ++ " to " ++ cur.document
             time_difference := diff
             events := [prev, cur] }
    else none
  | _, _ => none

/-- The `for i in range(1, len(timeline))` loop: each adjacent pair in
order. -/
def gapLoop : List TEvent → List GapViolation
  | a :: b :: rest =>
    (match gapOf a b with | some v => [v] | none => []) ++ gapLoop (b :: rest)
  | _ => []

/-- `analyze_timeline_violations(timeline)`. -/
def analyze_timeline_violations (tl : List TEvent) : List GapViolation :=
  if tl.length < 2 then [] else gapLoop tl


/-!
## Shared lemmas
-/

theorem pydedupAux_mem (l : List String) : ∀ (seen : List String) (x : String),
    x ∈ pydedupAux seen l ↔ x ∉ seen ∧ x ∈ l := by
  induction l with
  | nil => intro seen x; simp [pydedupAux]
  | cons y ys ih =>
    intro seen x
    simp only [pydedupAux]
    by_cases hy : y ∈ seen
    · rw [if_pos (List.elem_iff.mpr hy), ih]
      simp only [List.mem_cons]
      constructor
      · rintro ⟨hns, hm⟩; exact ⟨hns, Or.inr hm⟩
      · rintro ⟨hns, rfl | hm⟩
        · exact absurd hy hns
        · exact ⟨hns, hm⟩
    · rw [if_neg (fun hc => hy (List.elem_iff.mp hc))]
      simp only [List.mem_cons, ih, List.mem_cons]
      constructor
      · rintro (rfl | ⟨hns, hm⟩)
        · exact ⟨hy, Or.inl rfl⟩
        · exact ⟨fun hc => hns (Or.inr hc), Or.inr hm⟩
      · rintro ⟨hns, rfl | hm⟩
        · exact Or.inl rfl
        · by_cases hxy : x = y
          · exact Or.inl hxy
          · exact Or.inr ⟨fun hc => hns (by
              rcases hc with rfl | h
              · exact absurd rfl hxy
              · exact h), hm⟩

theorem pydedup_mem (l : List String) (x : String) : x ∈ pydedup l ↔ x ∈ l := by
  rw [pydedup, pydedupAux_mem]; simp

theorem alookup_map_value {α β : Type} (f : α → β) (l : List (String × α)) (k : String) :
    alookup (l.map (fun p => (p.1, f p.2))) k = (alookup l k).map f := by
  induction l with
  | nil => simp [alookup]
  | cons p ps ih =>
    by_cases hk : p.1 == k
    · simp [alookup, List.find?, hk]
    · simp only [alookup, List.map_cons, List.find?, hk] at *
      exact ih

/-!
## Claim C5: trackActors and detectContradictions are idempotent
-/

/-- C5: with no intervening document merge, a second `track_repeat_actors`
call returns the same actor-tracking map as the first (the function rebuilds
from scratch out of `case.violations` and `case.documents`, neither of which
it writes), and likewise a second `detect_contradictions` call returns the
same contradiction list. -/
theorem claim_C5_idempotent (c : Case) :
    (track_repeat_actors (track_repeat_actors c).2).1 = (track_repeat_actors c).1
      ∧ (detect_contradictions (detect_contradictions c).2).1
          = (detect_contradictions c).1 :=
  ⟨rfl, rfl⟩

/-!
## Claim C9: save/load round trip
-/

/-- C9: serializing a case (entity sets become arrays) and deserializing it
back yields entity values that are membership-equal to the originals, under
the same kinds in the same order, and leaves the violations list identical
and order-preserved. -/
theorem claim_C9_roundtrip (c : Case) :
    (save_load_roundtrip c).violations = c.violations
      ∧ List.Forall₂ (fun p q : String × EntVal =>
          p.1 = q.1 ∧ ∀ x, x ∈ p.2.elems ↔ x ∈ q.2.elems)
          (save_load_roundtrip c).entities c.entities := by
  constructor
  · rfl
  · have : (save_load_roundtrip c).entities
        = c.entities.map (fun p => (p.1, entValDeserialize (entValSerialize p.2))) := by
      simp [save_load_roundtrip, prepare_from_serialization, prepare_for_serialization]
    rw [this]
    rw [List.forall₂_map_left_iff, List.forall₂_same]
    intro p _
    refine ⟨rfl, fun x => ?_⟩
    cases p.2 with
    | evSet l => simpa [entValSerialize, entValDeserialize, EntVal.elems] using pydedup_mem l x
    | evList l => simpa [entValSerialize, entValDeserialize, EntVal.elems] using pydedup_mem l x

/-!
## Claim C10: saving degrades the in-memory entity sets to lists
-/

/-- C10: after `save_case_session` returns, every entity kind that held a set
holds a list with the same elements in the caller's in-memory case (the
shallow `copy()` shares the `entities` dict, so the serialization
preparation's in-place conversion hits the caller's object), and no entity
value of the saved case is a set any more — set semantics are lost until the
case is reloaded. -/
theorem claim_C10_save_mutates (c : Case) (k : String) (l : List String)
    (h : alookup c.entities k = some (.evSet l)) :
    alookup (save_case_session_effect c).entities k = some (.evList l)
      ∧ ∀ p ∈ (save_case_session_effect c).entities, ∃ m, p.2 = EntVal.evList m := by
  constructor
  · have := alookup_map_value entValSerialize c.entities k
    rw [save_case_session_effect, prepare_for_serialization] at *
    simp only [this, h, Option.map_some]
    rfl
  · intro p hp
    rw [save_case_session_effect, prepare_for_serialization] at hp
    simp only [List.mem_map] at hp
    obtain ⟨q, _, rfl⟩ := hp
    cases q.2 with
    | evSet m => exact ⟨m, rfl⟩
    | evList m => exact ⟨m, rfl⟩

/-- Witness for C10 at a concrete case: a fresh case holds `judges` as a set;
after saving it is the same-elements list. -/
theorem claim_C10_save_mutates_witness :
    alookup (save_case_session_effect (create_case_session "id0" "n" "t")).entities
        "judges" = some (.evList [])
      ∧ ∀ p ∈ (save_case_session_effect (create_case_session "id0" "n" "t")).entities,
          ∃ m, p.2 = EntVal.evList m :=
  claim_C10_save_mutates (create_case_session "id0" "n" "t") "judges" [] (by decide)

/-!
## Association-list and entity-merge lemmas
-/

theorem alookup_map_keep {α : Type} (m : List (String × α)) (k' k : String)
    (f : String × α → α) (h : k ≠ k') :
    alookup (m.map (fun p => if p.1 == k' then (k', f p) else p)) k = alookup m k := by
  induction m with
  | nil => rfl
  | cons p ps ih =>
    simp only [beq_iff_eq] at ih ⊢
    by_cases hpk : p.1 = k'
    · simp [alookup, hpk, Ne.symm h, ih]
    · simp only [List.map_cons, if_neg hpk]
      by_cases hp2 : p.1 = k
      · simp [alookup, hp2]
      · simp [alookup, hp2, ih]

theorem alookup_map_hit {α : Type} (m : List (String × α)) (k' : String)
    (f : String × α → α) (h : m.any (fun p => p.1 == k')) :
    ∃ p0, p0 ∈ m ∧ p0.1 = k'
      ∧ alookup (m.map (fun p => if p.1 == k' then (k', f p) else p)) k' = some (f p0) := by
  induction m with
  | nil => simp at h
  | cons p ps ih =>
    by_cases hpk : p.1 = k'
    · exact ⟨p, List.mem_cons_self _ _, hpk, by simp [alookup, hpk]⟩
    · simp only [List.any_cons, Bool.or_eq_true, beq_iff_eq, hpk, false_or] at h
      obtain ⟨p0, hp0m, hp0k, hl⟩ := ih (by simpa using h)
      refine ⟨p0, List.mem_cons_of_mem _ hp0m, hp0k, ?_⟩
      simp only [beq_iff_eq] at hl ⊢
      simp [alookup, hpk, hl]

theorem alookup_append {α : Type} (m₁ m₂ : List (String × α)) (k : String) :
    alookup (m₁ ++ m₂) k = (alookup m₁ k).orElse (fun _ => alookup m₂ k) := by
  induction m₁ with
  | nil => simp [alookup, Option.orElse]
  | cons p ps ih =>
    by_cases hpk : p.1 = k
    · simp [alookup, hpk, Option.orElse]
    · simp [alookup, hpk, ih]

theorem alookup_none_of_not_any {α : Type} (m : List (String × α)) (k : String)
    (h : ¬ m.any (fun p => p.1 == k)) : alookup m k = none := by
  induction m with
  | nil => rfl
  | cons p ps ih =>
    simp only [List.any_cons, Bool.or_eq_true, beq_iff_eq] at h
    push_neg at h
    simp [alookup, h.1, ih (by simpa using h.2)]

theorem alookup_aset {α : Type} (m : List (String × α)) (k' k : String) (v : α) :
    alookup (aset m k' v) k = if k = k' then some v else alookup m k := by
  by_cases hex : m.any (fun p => p.1 == k')
  · rw [aset, if_pos hex]
    by_cases hk : k = k'
    · subst hk
      obtain ⟨p0, _, _, hl⟩ := alookup_map_hit m k (fun _ => v) hex
      rw [if_pos rfl]
      exact hl
    · rw [alookup_map_keep m k' k (fun _ => v) hk, if_neg hk]
  · rw [aset, if_neg hex, alookup_append]
    by_cases hk : k = k'
    · subst hk
      rw [alookup_none_of_not_any m k hex]
      simp [alookup, Option.orElse]
    · have h1 : (k' == k) = false := by simp [Ne.symm hk]
      rw [if_neg hk]
      cases alookup m k <;> simp [alookup, h1, Option.orElse]

theorem pySetUpdate_mem (values : List String) : ∀ (s : List String) (x : String),
    x ∈ pySetUpdate s values ↔ x ∈ s ∨ x ∈ values := by
  induction values with
  | nil => intro s x; simp [pySetUpdate]
  | cons v vs ih =>
    intro s x
    have step : pySetUpdate s (v :: vs)
        = pySetUpdate (if s.contains v then s else s ++ [v]) vs := by
      simp only [pySetUpdate, List.foldl_cons]
    rw [step, ih]
    by_cases hv : s.contains v
    · have hvm : v ∈ s := List.elem_iff.mp hv
      simp only [hv, if_pos, List.mem_cons]
      constructor
      · rintro (hs | hvs)
        · exact Or.inl hs
        · exact Or.inr (Or.inr hvs)
      · rintro (hs | rfl | hvs)
        · exact Or.inl hs
        · exact Or.inl hvm
        · exact Or.inr hvs
    · rw [if_neg hv]
      simp only [List.mem_append, List.mem_singleton, List.mem_cons]
      tauto

theorem mergeEntStep_other (acc : List (String × EntVal)) (kv : String × List String)
    (k : String) (hk : k ≠ kv.1) :
    alookup (mergeEntStep acc kv) k = alookup acc k := by
  rw [mergeEntStep]
  cases hl : alookup acc kv.1 with
  | none => rfl
  | some w => cases w <;> simp [alookup_aset, hk]

theorem mergeEntStep_none (acc : List (String × EntVal)) (kv : String × List String)
    (k : String) (h : alookup acc k = none) :
    alookup (mergeEntStep acc kv) k = none := by
  by_cases hk : k = kv.1
  · subst hk
    rw [mergeEntStep, h]
    exact h
  · rw [mergeEntStep_other acc kv k hk, h]

theorem mergeEntStep_mono (acc : List (String × EntVal)) (kv : String × List String)
    (k : String) (v0 : EntVal) (h : alookup acc k = some v0) :
    ∃ v1, alookup (mergeEntStep acc kv) k = some v1 ∧ ∀ x ∈ v0.elems, x ∈ v1.elems := by
  by_cases hk : k = kv.1
  · subst hk
    rw [mergeEntStep, h]
    cases v0 with
    | evSet l =>
      refine ⟨.evSet (pySetUpdate l kv.2), by simp [alookup_aset], fun x hx => ?_⟩
      simpa [EntVal.elems] using (pySetUpdate_mem kv.2 l x).mpr (Or.inl (by simpa [EntVal.elems] using hx))
    | evList l =>
      refine ⟨.evSet (pydedup (l ++ kv.2)), by simp [alookup_aset], fun x hx => ?_⟩
      simp only [EntVal.elems] at hx ⊢
      exact (pydedup_mem _ x).mpr (List.mem_append_left _ hx)
  · exact ⟨v0, by rw [mergeEntStep_other acc kv k hk]; exact h, fun x hx => hx⟩

theorem mergeEntStep_self (acc : List (String × EntVal)) (kv : String × List String)
    (v0 : EntVal) (h : alookup acc kv.1 = some v0) :
    ∃ v1, alookup (mergeEntStep acc kv) kv.1 = some v1
      ∧ (∀ x ∈ kv.2, x ∈ v1.elems) ∧ (∀ x ∈ v0.elems, x ∈ v1.elems) := by
  rw [mergeEntStep, h]
  cases v0 with
  | evSet l =>
    refine ⟨.evSet (pySetUpdate l kv.2), by simp [alookup_aset], fun x hx => ?_, fun x hx => ?_⟩
    · simpa [EntVal.elems] using (pySetUpdate_mem kv.2 l x).mpr (Or.inr hx)
    · simpa [EntVal.elems] using (pySetUpdate_mem kv.2 l x).mpr (Or.inl (by simpa [EntVal.elems] using hx))
  | evList l =>
    refine ⟨.evSet (pydedup (l ++ kv.2)), by simp [alookup_aset], fun x hx => ?_, fun x hx => ?_⟩
    · simp only [EntVal.elems]
      exact (pydedup_mem _ x).mpr (List.mem_append_right _ hx)
    · simp only [EntVal.elems] at hx ⊢
      exact (pydedup_mem _ x).mpr (List.mem_append_left _ hx)

theorem mergeEntities_none (es : List (String × List String)) :
    ∀ (ents : List (String × EntVal)) (k : String), alookup ents k = none →
      alookup (mergeEntities ents es) k = none := by
  induction es with
  | nil => intro ents k h; exact h
  | cons kv rest ih =>
    intro ents k h
    exact ih (mergeEntStep ents kv) k (mergeEntStep_none ents kv k h)

theorem mergeEntities_mono (es : List (String × List String)) :
    ∀ (ents : List (String × EntVal)) (k : String) (v0 : EntVal),
      alookup ents k = some v0 →
      ∃ v1, alookup (mergeEntities ents es) k = some v1 ∧ ∀ x ∈ v0.elems, x ∈ v1.elems := by
  induction es with
  | nil => intro ents k v0 h; exact ⟨v0, h, fun x hx => hx⟩
  | cons kv rest ih =>
    intro ents k v0 h
    obtain ⟨v1, hl1, hm1⟩ := mergeEntStep_mono ents kv k v0 h
    obtain ⟨v2, hl2, hm2⟩ := ih (mergeEntStep ents kv) k v1 hl1
    exact ⟨v2, hl2, fun x hx => hm2 x (hm1 x hx)⟩

theorem mergeEntities_absorbs (es : List (String × List String)) :
    ∀ (ents : List (String × EntVal)) (k : String) (vals : List String) (v0 : EntVal),
      alookup es k = some vals → alookup ents k = some v0 →
      ∃ v1, alookup (mergeEntities ents es) k = some v1
        ∧ (∀ x ∈ vals, x ∈ v1.elems) ∧ (∀ x ∈ v0.elems, x ∈ v1.elems) := by
  induction es with
  | nil => intro ents k vals v0 hes _; simp [alookup] at hes
  | cons kv rest ih =>
    intro ents k vals v0 hes h
    by_cases hk : kv.1 = k
    · subst hk
      have hvals : vals = kv.2 := by
        simp [alookup] at hes; exact hes.symm
      subst hvals
      obtain ⟨v1, hl1, hin1, hmono1⟩ := mergeEntStep_self ents kv v0 h
      obtain ⟨v2, hl2, hm2⟩ := mergeEntities_mono rest (mergeEntStep ents kv) kv.1 v1 hl1
      exact ⟨v2, hl2, fun x hx => hm2 x (hin1 x hx), fun x hx => hm2 x (hmono1 x hx)⟩
    · have hes' : alookup rest k = some vals := by
        have hb : (kv.1 == k) = false := by simp [hk]
        simpa [alookup, hb] using hes
      have h' : alookup (mergeEntStep ents kv) k = some v0 := by
        rw [mergeEntStep_other ents kv k (fun he => hk he.symm)]; exact h
      exact ih (mergeEntStep ents kv) k vals v0 hes' h'

/-!
## Claim C3: entity merge
-/

/-- C3 counterexample: merging a document whose extracted entities contain the
kind `dates` (not a key of the case-level entity map) drops the values
entirely — no empty set is created for the kind and the value appears nowhere
in the case's entities, contradicting the claim's "no extracted entity value
is dropped during merge". -/
theorem claim_C3_counterexample :
    alookup (add_document_to_case (create_case_session "id0" "n" "t0") "h1"
        (some "a.pdf")
        { legal_entities := some [("dates", ["01/15/2023"])]
          document_type := some "order", potential_violations := none }
        "t1").entities "dates" = none
      ∧ ∀ p ∈ (add_document_to_case (create_case_session "id0" "n" "t0") "h1"
          (some "a.pdf")
          { legal_entities := some [("dates", ["01/15/2023"])]
            document_type := some "order", potential_violations := none }
          "t1").entities, "01/15/2023" ∉ p.2.elems := by
  decide

/-- C3 as amended: only entity kinds already present in the case's entity map
have their values unioned into the corresponding case-level set (existing
members preserved); a kind with no case-level entry is skipped entirely — no
empty set is created and its values are not added to the case-level map. -/
theorem claim_C3_amended (c : Case) (pdf_hash : String) (da_filename : Option String)
    (la : LegalAnalysis) (now : String) (es : List (String × List String))
    (hes : la.legal_entities = some es) (k : String) :
    (alookup c.entities k = none →
        alookup (add_document_to_case c pdf_hash da_filename la now).entities k = none)
      ∧ (∀ v0 vals, alookup c.entities k = some v0 → alookup es k = some vals →
          ∃ v1, alookup (add_document_to_case c pdf_hash da_filename la now).entities k
              = some v1
            ∧ (∀ x ∈ vals, x ∈ v1.elems) ∧ (∀ x ∈ v0.elems, x ∈ v1.elems)) := by
  have hent : (add_document_to_case c pdf_hash da_filename la now).entities
      = mergeEntities c.entities es := by
    simp [add_document_to_case, hes]
  constructor
  · intro h
    rw [hent]
    exact mergeEntities_none es c.entities k h
  · intro v0 vals h0 hv
    rw [hent]
    exact mergeEntities_absorbs es c.entities k vals v0 hv h0

/-- Witness for the amended C3 at a concrete case: `case_numbers` is a
case-level kind, so its extracted value lands in the merged set. -/
theorem claim_C3_amended_witness :
    ∃ v1, alookup (add_document_to_case (create_case_session "id0" "n" "t0") "h1"
          (some "a.pdf")
          { legal_entities := some [("case_numbers", ["JU-1"])]
            document_type := some "order", potential_violations := none }
          "t1").entities "case_numbers" = some v1
      ∧ (∀ x ∈ ["JU-1"], x ∈ v1.elems)
      ∧ (∀ x ∈ (EntVal.evSet []).elems, x ∈ v1.elems) :=
  (claim_C3_amended (create_case_session "id0" "n" "t0") "h1" (some "a.pdf")
      { legal_entities := some [("case_numbers", ["JU-1"])]
        document_type := some "order", potential_violations := none }
      "t1" [("case_numbers", ["JU-1"])] rfl "case_numbers").2
    (EntVal.evSet []) ["JU-1"] (by decide) (by decide)

/-!
## Claim C7: timeline gap detection
-/

/-- The index loop of `analyze_timeline_violations` visits exactly the
adjacent pairs of the timeline. -/
theorem gapLoop_eq_zip (tl : List TEvent) :
    gapLoop tl = (tl.zip tl.tail).filterMap (fun p => gapOf p.1 p.2) := by
  induction tl with
  | nil => rfl
  | cons a rest ih =>
    cases rest with
    | nil => rfl
    | cons b rest' =>
      simp only [gapLoop, List.tail_cons, List.zip_cons_cons, List.filterMap_cons]
      cases gapOf a b with
      | none => simpa using ih
      | some v => simpa using ih

/-- C7: a timeline with fewer than 2 events yields no gap violations; the
output is exactly one record per adjacent pair on which `gapOf` fires; a
fired record is a medium-severity, score-2 `excessive_delay` violation
referencing both events of its pair; a pair whose dates are both present
fires iff the day difference exceeds 180. -/
theorem claim_C7_gaps :
    (∀ tl : List TEvent, tl.length < 2 → analyze_timeline_violations tl = [])
      ∧ (∀ tl : List TEvent, analyze_timeline_violations tl
          = (tl.zip tl.tail).filterMap (fun p => gapOf p.1 p.2))
      ∧ (∀ prev cur v, gapOf prev cur = some v →
          v.gtype = "excessive_delay" ∧ v.severity = "medium" ∧ v.severity_score = 2
            ∧ v.events = [prev, cur] ∧ v.time_difference > 180)
      ∧ (∀ prev cur pd cd, prev.date = some pd → cur.date = some cd →
          (toOrdinal cd : Int) - toOrdinal pd ≤ 180 → gapOf prev cur = none)
      ∧ (∀ prev cur pd cd, prev.date = some pd → cur.date = some cd →
          (toOrdinal cd : Int) - toOrdinal pd > 180 → (gapOf prev cur).isSome) := by
  refine ⟨?_, ?_, ?_, ?_, ?_⟩
  · intro tl h
    simp [analyze_timeline_violations, h]
  · intro tl
    rw [analyze_timeline_violations]
    by_cases h : tl.length < 2
    · rw [if_pos h]
      match tl, h with
      | [], _ => rfl
      | [a], _ => rfl
    · rw [if_neg h, gapLoop_eq_zip]
  · intro prev cur v hg
    cases hp : prev.date with
    | none => simp [gapOf, hp] at hg
    | some pd =>
      cases hc : cur.date with
      | none => simp [gapOf, hp, hc] at hg
      | some cd =>
        simp only [gapOf, hp, hc] at hg
        by_cases hd : ((toOrdinal cd : Int) - toOrdinal pd) > 180
        · rw [if_pos hd] at hg
          cases hg
          exact ⟨rfl, rfl, rfl, rfl, hd⟩
        · rw [if_neg hd] at hg; cases hg
  · intro prev cur pd cd hp hc hle
    simp only [gapOf, hp, hc]
    rw [if_neg (by omega)]
  · intro prev cur pd cd hp hc hgt
    simp only [gapOf, hp, hc]
    rw [if_pos hgt]
    rfl

/-- A concrete timeline event (2022-01-01). -/
def c7e1 : TEvent :=
  { date := some ⟨2022, 1, 1⟩, date_str := "01/01/2022", document := "a.pdf",
    document_hash := "h1", document_type := "order", context := "Referenced in a.pdf" }

/-- A concrete timeline event 200 days after `c7e1` (2022-07-20). -/
def c7e2 : TEvent :=
  { date := some ⟨2022, 7, 20⟩, date_str := "07/20/2022", document := "b.pdf",
    document_hash := "h2", document_type := "motion", context := "Referenced in b.pdf" }

/-- A concrete timeline event 30 days after `c7e1` (2022-01-31). -/
def c7e3 : TEvent :=
  { date := some ⟨2022, 1, 31⟩, date_str := "01/31/2022", document := "b.pdf",
    document_hash := "h2", document_type := "motion", context := "Referenced in b.pdf" }

/-- Witness for C7: the empty timeline yields nothing; a 200-day adjacent pair
yields a gap violation; a 30-day adjacent pair yields none. -/
theorem claim_C7_gaps_witness :
    analyze_timeline_violations ([] : List TEvent) = []
      ∧ (gapOf c7e1 c7e2).isSome
      ∧ gapOf c7e1 c7e3 = none :=
  ⟨claim_C7_gaps.1 [] (by decide),
   claim_C7_gaps.2.2.2.2 c7e1 c7e2 ⟨2022, 1, 1⟩ ⟨2022, 7, 20⟩ rfl rfl (by decide),
   claim_C7_gaps.2.2.2.1 c7e1 c7e3 ⟨2022, 1, 1⟩ ⟨2022, 1, 31⟩ rfl rfl (by decide)⟩

/-!
## Claims C1 and C2: deduplication, severity scoring, sorting

`deduplicateAux_mem` characterises the survivors of `_deduplicate_violations`;
the `insertc`/`sortfold` lemmas describe the stable descending sort.
-/
theorem deduplicateAux_mem (vs : List Violation) : ∀ (seen : List String) (v : Violation),
    v ∈ deduplicateAux seen vs
      ↔ dedupKey v ∉ seen
          ∧ (vs.filter (fun w => dedupKey w == dedupKey v)).head? = some v := by
  induction vs with
  | nil => intro seen v; simp [deduplicateAux]
  | cons x rest ih =>
    intro seen v
    by_cases hk : dedupKey x ∈ seen
    · rw [deduplicateAux, if_pos hk, ih]
      by_cases hxv : dedupKey x = dedupKey v
      · rw [List.filter_cons_of_pos (by simpa using hxv)]
        simp only [List.head?_cons]
        constructor
        · rintro ⟨hns, _⟩
          exact absurd (hxv ▸ hk) hns
        · rintro ⟨hns, hx⟩
          cases hx
          exact absurd (hxv ▸ hk) (hxv ▸ hns)
      · rw [List.filter_cons_of_neg (by simpa using hxv)]
    · rw [deduplicateAux, if_neg hk]
      by_cases hxv : dedupKey x = dedupKey v
      · rw [List.filter_cons_of_pos (by simpa using hxv)]
        simp only [List.mem_cons, ih, List.head?_cons]
        constructor
        · rintro (rfl | ⟨hns, _⟩)
          · exact ⟨hxv ▸ hk, rfl⟩
          · exact absurd (by simp [hxv]) hns
        · rintro ⟨hns, hx⟩
          cases hx
          exact Or.inl rfl
      · rw [List.filter_cons_of_neg (by simpa using hxv)]
        simp only [List.mem_cons, ih]
        constructor
        · rintro (rfl | ⟨hns, hh⟩)
          · exact absurd rfl hxv
          · exact ⟨fun hc => hns (Or.inr hc), hh⟩
        · rintro ⟨hns, hh⟩
          refine Or.inr ⟨fun hc => ?_, hh⟩
          rcases hc with he | hi
          · exact hxv he.symm
          · exact hns hi

theorem deduplicateAux_sublist (vs : List Violation) : ∀ (seen : List String),
    (deduplicateAux seen vs).Sublist vs := by
  induction vs with
  | nil => intro seen; simp [deduplicateAux]
  | cons x rest ih =>
    intro seen
    rw [deduplicateAux]
    by_cases hk : dedupKey x ∈ seen
    · rw [if_pos hk]
      exact (ih seen).cons x
    · rw [if_neg hk]
      exact (ih (dedupKey x :: seen)).cons₂ x

theorem insertc_mem (l : List Violation) (v x : Violation) :
    x ∈ insertc v l ↔ x = v ∨ x ∈ l := by
  induction l with
  | nil => simp [insertc]
  | cons y ys ih =>
    rw [insertc]
    by_cases h : y.severity_score < v.severity_score
    · rw [if_pos h]
      simp [List.mem_cons]
    · rw [if_neg h]
      simp only [List.mem_cons, ih]
      tauto

theorem insertc_pairwise (l : List Violation) (v : Violation)
    (h : l.Pairwise (fun a b => b.severity_score ≤ a.severity_score)) :
    (insertc v l).Pairwise (fun a b => b.severity_score ≤ a.severity_score) := by
  induction l with
  | nil => simp [insertc]
  | cons y ys ih =>
    rw [insertc]
    rcases List.pairwise_cons.mp h with ⟨hy, hys⟩
    by_cases hlt : y.severity_score < v.severity_score
    · rw [if_pos hlt]
      refine List.pairwise_cons.mpr ⟨?_, h⟩
      intro z hz
      rcases List.mem_cons.mp hz with rfl | hz
      · exact Nat.le_of_lt hlt
      · exact Nat.le_trans (hy z hz) (Nat.le_of_lt hlt)
    · rw [if_neg hlt]
      refine List.pairwise_cons.mpr ⟨?_, ih hys⟩
      intro z hz
      rcases (insertc_mem ys v z).mp hz with rfl | hz
      · exact Nat.le_of_not_lt hlt
      · exact hy z hz

theorem filter_insertc (v : Violation) (s : Nat) (l : List Violation)
    (h : l.Pairwise (fun a b => b.severity_score ≤ a.severity_score)) :
    (insertc v l).filter (fun x => x.severity_score == s)
      = if v.severity_score = s
        then l.filter (fun x => x.severity_score == s) ++ [v]
        else l.filter (fun x => x.severity_score == s) := by
  induction l with
  | nil =>
    by_cases hv : v.severity_score = s
    · simp [insertc, List.filter, hv]
    · have hb : (v.severity_score == s) = false := by simpa using hv
      simp [insertc, List.filter, hb, hv]
  | cons y ys ih =>
    rcases List.pairwise_cons.mp h with ⟨hy, hys⟩
    rw [insertc]
    by_cases hlt : y.severity_score < v.severity_score
    · rw [if_pos hlt]
      by_cases hv : v.severity_score = s
      · have hnil : (y :: ys).filter (fun x => x.severity_score == s) = [] := by
          rw [List.filter_eq_nil_iff]
          intro a ha
          have : a.severity_score ≤ y.severity_score := by
            rcases List.mem_cons.mp ha with rfl | hm
            · exact Nat.le_refl _
            · exact hy a hm
          simp only [beq_iff_eq]
          omega
        rw [if_pos hv, hnil, List.filter_cons_of_pos (by simpa using hv), hnil]
        rfl
      · rw [if_neg hv, List.filter_cons_of_neg (by simpa using hv)]
    · rw [if_neg hlt]
      by_cases hyv : y.severity_score = s
      · rw [List.filter_cons_of_pos (by simpa using hyv),
            List.filter_cons_of_pos (by simpa using hyv), ih hys]
        by_cases hv : v.severity_score = s
        · rw [if_pos hv, if_pos hv]
          rfl
        · rw [if_neg hv, if_neg hv]
      · rw [List.filter_cons_of_neg (by simpa using hyv),
            List.filter_cons_of_neg (by simpa using hyv), ih hys]

theorem sortfold_mem (l : List Violation) : ∀ (acc : List Violation) (x : Violation),
    x ∈ l.foldl (fun a v => insertc v a) acc ↔ x ∈ acc ∨ x ∈ l := by
  induction l with
  | nil => intro acc x; simp
  | cons v rest ih =>
    intro acc x
    rw [List.foldl_cons, ih, insertc_mem]
    simp only [List.mem_cons]
    tauto

theorem sortfold_pairwise (l : List Violation) : ∀ (acc : List Violation),
    acc.Pairwise (fun a b => b.severity_score ≤ a.severity_score) →
    (l.foldl (fun a v => insertc v a) acc).Pairwise
      (fun a b => b.severity_score ≤ a.severity_score) := by
  induction l with
  | nil => intro acc h; exact h
  | cons v rest ih =>
    intro acc h
    exact ih (insertc v acc) (insertc_pairwise acc v h)

theorem sortfold_filter (l : List Violation) : ∀ (acc : List Violation) (s : Nat),
    acc.Pairwise (fun a b => b.severity_score ≤ a.severity_score) →
    (l.foldl (fun a v => insertc v a) acc).filter (fun x => x.severity_score == s)
      = acc.filter (fun x => x.severity_score == s)
          ++ l.filter (fun x => x.severity_score == s) := by
  induction l with
  | nil => intro acc s _; simp
  | cons v rest ih =>
    intro acc s h
    rw [List.foldl_cons, ih (insertc v acc) s (insertc_pairwise acc v h),
        filter_insertc v s acc h]
    by_cases hv : v.severity_score = s
    · rw [if_pos hv, List.filter_cons_of_pos (by simpa using hv), List.append_assoc]
      rfl
    · rw [if_neg hv, List.filter_cons_of_neg (by simpa using hv)]

theorem sortByScoreDesc_mem (l : List Violation) (x : Violation) :
    x ∈ sortByScoreDesc l ↔ x ∈ l := by
  rw [sortByScoreDesc, sortfold_mem]
  simp

theorem sortByScoreDesc_pairwise (l : List Violation) :
    (sortByScoreDesc l).Pairwise (fun a b => b.severity_score ≤ a.severity_score) :=
  sortfold_pairwise l [] (List.Pairwise.nil)

theorem sortByScoreDesc_filter (l : List Violation) (s : Nat) :
    (sortByScoreDesc l).filter (fun x => x.severity_score == s)
      = l.filter (fun x => x.severity_score == s) := by
  rw [sortByScoreDesc, sortfold_filter l [] s List.Pairwise.nil]
  rfl

theorem emitViolations_score (textC : List Char) (tables : List (String × PatternInfo))
    (v : Violation) (h : v ∈ emitViolations textC tables) :
    v.severity_score = get_severity_score v.severity := by
  simp only [emitViolations, List.mem_flatMap, List.mem_map] at h
  obtain ⟨ti, _, pat, _, se, _, rfl⟩ := h
  rfl

theorem detect_violations_score (text dt : String) (v : Violation)
    (h : v ∈ detect_violations text dt) :
    v.severity_score = get_severity_score v.severity := by
  rw [detect_violations] at h
  rw [sortByScoreDesc_mem] at h
  have hm : v ∈ emitViolations text.toList (allPatternTables (pyLower text.toList) dt) :=
    (deduplicateAux_sublist _ []).subset h
  exact emitViolations_score _ _ v hm

/-- The spec's deduplication scenario text. -/
def due_process_scenario : String :=
  "The court found a due process violation in denying notice. Due process violation occurred again here."

set_option maxRecDepth 100000 in
/-- C1: a violation survives deduplication exactly when it is the first
violation carrying its (type, first 50 context characters) key, insertion
order otherwise preserved (sublist); on the spec's scenario text the two
`due process violation` matches share one key, so `detect` returns exactly
one violation, of type `constitutional_violation`, severity `high`,
severity_score 3. -/
theorem claim_C1_dedup_scenario :
    (∀ (vs : List Violation) (v : Violation),
        v ∈ deduplicate_violations vs
          ↔ (vs.filter (fun w => dedupKey w == dedupKey v)).head? = some v)
      ∧ (∀ vs : List Violation, (deduplicate_violations vs).Sublist vs)
      ∧ (detect_violations due_process_scenario "unknown").length = 1
      ∧ (detect_violations due_process_scenario "unknown").all
          (fun v => v.vtype == "constitutional_violation" && v.severity == "high"
            && v.severity_score == 3
            && v.pattern_matched == "due process violation") = true := by
  refine ⟨?_, ?_, ?_, ?_⟩
  · intro vs v
    rw [deduplicate_violations, deduplicateAux_mem]
    simp
  · intro vs
    exact deduplicateAux_sublist vs []
  · decide
  · decide

/-- C2: every violation `detect` returns carries the severity score determined
by its severity tag, where the tag table sends high to 3, medium to 2 and low
to 1; the returned list is sorted by severity score descending; and for each
score the returned sub-list of that score equals the deduplicated emission
sub-list of that score (the sort is stable over insertion order). -/
theorem claim_C2_scores_sorted (text dt : String) :
    (detect_violations text dt).all
        (fun v => v.severity_score == get_severity_score v.severity) = true
      ∧ get_severity_score "high" = 3
      ∧ get_severity_score "medium" = 2
      ∧ get_severity_score "low" = 1
      ∧ (detect_violations text dt).Pairwise
          (fun a b => b.severity_score ≤ a.severity_score)
      ∧ ∀ s : Nat, (detect_violations text dt).filter (fun v => v.severity_score == s)
          = (deduplicate_violations (emitViolations text.toList
              (allPatternTables (pyLower text.toList) dt))).filter
              (fun v => v.severity_score == s) := by
  refine ⟨?_, rfl, rfl, rfl, ?_, ?_⟩
  · rw [List.all_eq_true]
    intro v hv
    simpa using detect_violations_score text dt v hv
  · rw [detect_violations]
    exact sortByScoreDesc_pairwise _
  · intro s
    rw [detect_violations]
    exact sortByScoreDesc_filter _ s

/-- Witness for C2 at the concrete scenario text. -/
theorem claim_C2_scores_sorted_witness :
    (detect_violations due_process_scenario "unknown").Pairwise
        (fun a b => b.severity_score ≤ a.severity_score)
      ∧ (detect_violations due_process_scenario "unknown").all
          (fun v => v.severity_score == get_severity_score v.severity) = true :=
  ⟨(claim_C2_scores_sorted due_process_scenario "unknown").2.2.2.2.1,
   (claim_C2_scores_sorted due_process_scenario "unknown").1⟩

/-!
## Claim C6: timeline construction
-/
theorem insertAsc_mem (l : List TEvent) (v x : TEvent) :
    x ∈ insertAsc v l ↔ x = v ∨ x ∈ l := by
  induction l with
  | nil => simp [insertAsc]
  | cons y ys ih =>
    rw [insertAsc]
    by_cases h : tkey v < tkey y
    · rw [if_pos h]
      simp [List.mem_cons]
    · rw [if_neg h]
      simp only [List.mem_cons, ih]
      tauto

theorem insertAsc_pairwise (l : List TEvent) (v : TEvent)
    (h : l.Pairwise (fun a b => tkey a ≤ tkey b)) :
    (insertAsc v l).Pairwise (fun a b => tkey a ≤ tkey b) := by
  induction l with
  | nil => simp [insertAsc]
  | cons y ys ih =>
    rw [insertAsc]
    rcases List.pairwise_cons.mp h with ⟨hy, hys⟩
    by_cases hlt : tkey v < tkey y
    · rw [if_pos hlt]
      refine List.pairwise_cons.mpr ⟨?_, h⟩
      intro z hz
      rcases List.mem_cons.mp hz with rfl | hz
      · exact Nat.le_of_lt hlt
      · exact Nat.le_trans (Nat.le_of_lt hlt) (hy z hz)
    · rw [if_neg hlt]
      refine List.pairwise_cons.mpr ⟨?_, ih hys⟩
      intro z hz
      rcases (insertAsc_mem ys v z).mp hz with rfl | hz
      · exact Nat.le_of_not_lt hlt
      · exact hy z hz

theorem sortTimeline_mem (l : List TEvent) (x : TEvent) :
    x ∈ sortTimeline l ↔ x ∈ l := by
  suffices h : ∀ (acc : List TEvent),
      (x ∈ l.foldl (fun a v => insertAsc v a) acc ↔ x ∈ acc ∨ x ∈ l) by
    rw [sortTimeline]
    rw [h []]
    simp
  induction l with
  | nil => intro acc; simp
  | cons v rest ih =>
    intro acc
    rw [List.foldl_cons, ih, insertAsc_mem]
    simp only [List.mem_cons]
    tauto

theorem sortTimeline_pairwise (l : List TEvent) :
    (sortTimeline l).Pairwise (fun a b => tkey a ≤ tkey b) := by
  suffices h : ∀ (acc : List TEvent), acc.Pairwise (fun a b => tkey a ≤ tkey b) →
      (l.foldl (fun a v => insertAsc v a) acc).Pairwise (fun a b => tkey a ≤ tkey b) by
    exact h [] List.Pairwise.nil
  induction l with
  | nil => intro acc hacc; exact hacc
  | cons v rest ih =>
    intro acc hacc
    exact ih (insertAsc v acc) (insertAsc_pairwise acc v hacc)

theorem timelineEventsOf_parse (c : Case) (e : TEvent) (h : e ∈ timelineEventsOf c) :
    ∃ pd, parse_date e.date_str = some pd ∧ e.date = some pd := by
  rw [timelineEventsOf] at h
  rw [List.mem_flatMap] at h
  obtain ⟨hd, _, he⟩ := h
  cases hle : hd.2.legal_analysis.legal_entities with
  | none => simp only [hle] at he; cases he
  | some es =>
    simp only [hle] at he
    cases hds : alookup es "dates" with
    | none => simp only [hds] at he; cases he
    | some dates =>
      simp only [hds] at he
      rw [List.mem_filterMap] at he
      obtain ⟨ds, _, hp⟩ := he
      cases hpd : parse_date ds with
      | none => rw [hpd] at hp; cases hp
      | some pd =>
        rw [hpd] at hp
        cases hp
        exact ⟨pd, hpd, rfl⟩

theorem findSome?_append_of_none {α β : Type} (f : α → Option β) (pre rest : List α)
    (h : ∀ a ∈ pre, f a = none) :
    (pre ++ rest).findSome? f = rest.findSome? f := by
  induction pre with
  | nil => simp
  | cons a l ih =>
    rw [List.cons_append, List.findSome?_cons, h a (List.mem_cons_self a l),
        ih (fun b hb => h b (List.mem_cons_of_mem a hb))]

/-- The spec's timeline-ordering scenario: three documents carrying the dates
`01/15/2023`, `March 3, 2022` and `2021-06-01` (plus one unparseable string). -/
def c6case : Case :=
  add_document_to_case (add_document_to_case (add_document_to_case
    (create_case_session "id6" "n" "t0")
    "h1" (some "a.pdf")
    { legal_entities := some [("dates", ["01/15/2023"])]
      document_type := some "order", potential_violations := none } "t1")
    "h2" (some "b.pdf")
    { legal_entities := some [("dates", ["March 3, 2022"])]
      document_type := some "motion", potential_violations := none } "t2")
    "h3" (some "c.pdf")
    { legal_entities := some [("dates", ["2021-06-01", "not a date"])]
      document_type := some "petition", potential_violations := none } "t3"

set_option maxRecDepth 40000 in
/-- C6: the rebuilt timeline replaces the case's previous one; it is sorted
ascending by parsed date; every event's date string parses (via the format
list) to exactly the date stored on the event, so unparseable strings
contribute no event; `_parse_date` commits to the first format of the list
that parses; and the three scenario dates come back ordered 2021-06-01,
2022-03-03, 2023-01-15 with the unparseable string silently dropped. -/
theorem claim_C6_timeline :
    (∀ c : Case, ((generate_timeline c).2).timeline = (generate_timeline c).1)
      ∧ (∀ c : Case, ((generate_timeline c).1).Pairwise (fun a b => tkey a ≤ tkey b))
      ∧ (∀ (c : Case) (e : TEvent), e ∈ (generate_timeline c).1 →
          ∃ pd, parse_date e.date_str = some pd ∧ e.date = some pd)
      ∧ (∀ (s : String) (pre post : List (List FTok)) (fmt : List FTok) (d : PyDate),
          date_formats = pre ++ fmt :: post →
          (∀ f ∈ pre, strptime f (pyStrip s.toList) = none) →
          strptime fmt (pyStrip s.toList) = some d →
          parse_date s = some d)
      ∧ (generate_timeline c6case).1.map (fun e => e.date_str)
          = ["2021-06-01", "March 3, 2022", "01/15/2023"]
      ∧ (generate_timeline c6case).1.map (fun e => e.date)
          = [some ⟨2021, 6, 1⟩, some ⟨2022, 3, 3⟩, some ⟨2023, 1, 15⟩] := by
  refine ⟨fun c => rfl, fun c => sortTimeline_pairwise _, ?_, ?_, by decide, by decide⟩
  · intro c e he
    exact timelineEventsOf_parse c e ((sortTimeline_mem _ e).mp he)
  · intro s pre post fmt d heq hpre hfmt
    rw [parse_date, heq, findSome?_append_of_none _ pre _ hpre, List.findSome?_cons, hfmt]

/-- Witness for C6: `March 3, 2022` fails the first four formats and parses
with the fifth (`%B %d, %Y`); `not a date` fails every format and produces no
event in the scenario case. -/
theorem claim_C6_timeline_witness :
    parse_date "March 3, 2022" = some ⟨2022, 3, 3⟩
      ∧ ∀ e ∈ (generate_timeline c6case).1,
          ∃ pd, parse_date e.date_str = some pd ∧ e.date = some pd :=
  ⟨claim_C6_timeline.2.2.2.1 "March 3, 2022"
      [[.monthNum, .lit '/', .dayNum, .lit '/', .year4],
       [.monthNum, .lit '-', .dayNum, .lit '-', .year4],
       [.monthNum, .lit '/', .dayNum, .lit '/', .year2],
       [.monthNum, .lit '-', .dayNum, .lit '-', .year2]]
      [[.monthAbbr, .wsT, .dayNum, .lit ',', .wsT, .year4],
       [.monthFull, .wsT, .dayNum, .wsT, .year4],
       [.monthAbbr, .wsT, .dayNum, .wsT, .year4],
       [.year4, .lit '-', .monthNum, .lit '-', .dayNum],
       [.dayNum, .lit '/', .monthNum, .lit '/', .year4],
       [.dayNum, .lit '-', .monthNum, .lit '-', .year4]]
      [.monthFull, .wsT, .dayNum, .lit ',', .wsT, .year4] ⟨2022, 3, 3⟩
      (by decide) (by decide) (by decide),
   fun e he => claim_C6_timeline.2.2.1 c6case e he⟩

/-!
## Claim C8: document classifier
-/
theorem positiveScores_pos (text : String) (p : String × Nat)
    (h : p ∈ positiveScores text) : 0 < p.2 := by
  rw [positiveScores, List.mem_filterMap] at h
  obtain ⟨q, _, hq⟩ := h
  by_cases hsc : typeScore (pyLower text.toList) q.2 > 0
  · rw [if_pos hsc] at hq
    cases hq
    exact hsc
  · rw [if_neg hsc] at hq
    cases hq

theorem positiveScores_nil_iff (text : String) :
    positiveScores text = []
      ↔ ∀ q ∈ document_types, typeScore (pyLower text.toList) q.2 = 0 := by
  rw [positiveScores, List.filterMap_eq_nil_iff]
  constructor
  · intro h q hq
    have := h q hq
    by_cases hsc : typeScore (pyLower text.toList) q.2 > 0
    · rw [if_pos hsc] at this; cases this
    · omega
  · intro h q hq
    rw [if_neg (by rw [h q hq]; omega)]

theorem foldmax_spec (l : List (String × Nat)) : ∀ b : String × Nat,
    (l.foldl (fun best p => if p.2 > best.2 then p else best) b) ∈ b :: l
      ∧ b.2 ≤ (l.foldl (fun best p => if p.2 > best.2 then p else best) b).2
      ∧ ∀ q ∈ l, q.2 ≤ (l.foldl (fun best p => if p.2 > best.2 then p else best) b).2 := by
  induction l with
  | nil =>
    intro b
    exact ⟨List.mem_cons_self b [], Nat.le_refl _, by simp⟩
  | cons p ps ih =>
    intro b
    rw [List.foldl_cons]
    by_cases hpb : p.2 > b.2
    · rw [if_pos hpb]
      obtain ⟨hm, hb, hq⟩ := ih p
      refine ⟨?_, Nat.le_trans (Nat.le_of_lt hpb) hb, ?_⟩
      · rcases List.mem_cons.mp hm with he | hm
        · rw [he]
          exact List.mem_cons_of_mem _ (List.mem_cons_self _ _)
        · exact List.mem_cons_of_mem _ (List.mem_cons_of_mem _ hm)
      · intro q hqm
        rcases List.mem_cons.mp hqm with rfl | hqm
        · exact hb
        · exact hq q hqm
    · rw [if_neg hpb]
      obtain ⟨hm, hb, hq⟩ := ih b
      refine ⟨?_, hb, ?_⟩
      · rcases List.mem_cons.mp hm with he | hm
        · rw [he]
          exact List.mem_cons_self _ _
        · exact List.mem_cons_of_mem _ (List.mem_cons_of_mem _ hm)
      · intro q hqm
        rcases List.mem_cons.mp hqm with rfl | hqm
        · exact Nat.le_trans (Nat.le_of_not_lt hpb) hb
        · exact hq q hqm

/-- C8: the classifier answers `{unknown, 0}` exactly when every candidate
type's keyword score is zero; otherwise it returns a positive-score type of
maximal score with confidence that type's score over the total of all
positive scores; and when exactly one type scores at all, the confidence is
1. -/
theorem claim_C8_classifier (text : String) :
    ((analyze_document_type text).dtype = "unknown"
          ∧ (analyze_document_type text).confidence = 0
        ↔ ∀ q ∈ document_types, typeScore (pyLower text.toList) q.2 = 0)
      ∧ (∀ s0 rest, positiveScores text = s0 :: rest →
          ∃ p ∈ positiveScores text,
            (analyze_document_type text).dtype = p.1
              ∧ (analyze_document_type text).confidence
                  = (p.2 : ℚ) / (((((positiveScores text).map (fun q => q.2)).sum : ℕ)) : ℚ)
              ∧ ∀ q ∈ positiveScores text, q.2 ≤ p.2)
      ∧ (∀ p, positiveScores text = [p] →
          (analyze_document_type text).confidence = 1) := by
  have hmain : ∀ s0 rest, positiveScores text = s0 :: rest →
      ∃ p ∈ positiveScores text,
        (analyze_document_type text).dtype = p.1
          ∧ (analyze_document_type text).confidence
              = (p.2 : ℚ) / (((((positiveScores text).map (fun q => q.2)).sum : ℕ)) : ℚ)
          ∧ ∀ q ∈ positiveScores text, q.2 ≤ p.2 := by
    intro s0 rest h
    obtain ⟨hm, hb, hq⟩ := foldmax_spec rest s0
    refine ⟨rest.foldl (fun best p => if p.2 > best.2 then p else best) s0,
      h ▸ hm, ?_, ?_, ?_⟩
    · simp only [analyze_document_type, h]
    · simp only [analyze_document_type, h]
    · intro q hqm
      rw [h] at hqm
      rcases List.mem_cons.mp hqm with rfl | hqm
      · exact hb
      · exact hq q hqm
  refine ⟨⟨?_, ?_⟩, hmain, ?_⟩
  · rintro ⟨-, hconf⟩
    by_contra hnz
    have hne : positiveScores text ≠ [] := fun hnil =>
      hnz ((positiveScores_nil_iff text).mp hnil)
    obtain ⟨s0, rest, h⟩ := List.exists_cons_of_ne_nil hne
    obtain ⟨p, hpm, -, hcf, -⟩ := hmain s0 rest h
    have hppos : 0 < p.2 := positiveScores_pos text p hpm
    have htot : 0 < ((positiveScores text).map (fun q => q.2)).sum := by
      have : p.2 ≤ ((positiveScores text).map (fun q => q.2)).sum :=
        List.le_sum_of_mem (List.mem_map_of_mem _ hpm)
      omega
    rw [hcf] at hconf
    have h1 : ((p.2 : ℚ)) ≠ 0 := by
      exact_mod_cast Nat.pos_iff_ne_zero.mp hppos
    have h2 : (((((positiveScores text).map (fun q => q.2)).sum : ℕ)) : ℚ) ≠ 0 := by
      exact_mod_cast Nat.pos_iff_ne_zero.mp htot
    exact (div_ne_zero h1 h2) hconf
  · intro hz
    have hnil : positiveScores text = [] := (positiveScores_nil_iff text).mpr hz
    simp only [analyze_document_type, hnil]
    constructor <;> trivial
  · intro p h
    obtain ⟨p', hpm, -, hcf, -⟩ := hmain p [] h
    rw [h] at hpm
    rcases List.mem_cons.mp hpm with rfl | hc
    · rw [hcf, h]
      have hppos : 0 < p'.2 := positiveScores_pos text p' (h ▸ List.mem_cons_self _ _)
      have : ((p'.2 : ℚ)) ≠ 0 := by exact_mod_cast Nat.pos_iff_ne_zero.mp hppos
      simp [div_self this]
    · cases hc

/-- Witness for C8: the text `exhibit` hits only the `evidence` type and is
classified as `evidence` with confidence 1; the text `zzz` hits nothing and is
classified `unknown` with confidence 0. -/
theorem claim_C8_classifier_witness :
    (analyze_document_type "exhibit").confidence = 1
      ∧ ((analyze_document_type "zzz").dtype = "unknown"
          ∧ (analyze_document_type "zzz").confidence = 0) :=
  ⟨(claim_C8_classifier "exhibit").2.2 ("evidence", 1) (by decide),
   ((claim_C8_classifier "zzz").1).mpr (by decide)⟩

/-!
## Claim C4: case-number contradictions

The fold lemmas characterise the grouping dict `detect_contradictions`
builds; `count_emitContra` counts the flagged contradictions per key.
-/
theorem alookup_map_adjust {α : Type} (m : List (String × α)) (k : String)
    (f : α → α) :
    alookup (m.map (fun p => if p.1 == k then (k, f p.2) else p)) k
      = (alookup m k).map f := by
  induction m with
  | nil => rfl
  | cons p ps ih =>
    by_cases hpk : p.1 = k
    · simp [alookup, hpk]
    · simp only [beq_iff_eq] at ih ⊢
      simp only [List.map_cons, if_neg hpk]
      simp [alookup, hpk, ih]

theorem alookup_isSome_iff_any {α : Type} (m : List (String × α)) (k : String) :
    (alookup m k).isSome = m.any (fun p => p.1 == k) := by
  induction m with
  | nil => rfl
  | cons p ps ih =>
    by_cases hpk : p.1 = k
    · simp [alookup, hpk]
    · simp [alookup, hpk, ih]

theorem alookup_groupAdd (m : List (String × List (String × String)))
    (k' : String) (e : String × String) (k : String) :
    alookup (groupAdd m k' e) k
      = if k = k' then some ((alookup m k).getD [] ++ [e]) else alookup m k := by
  by_cases hex : m.any (fun p => p.1 == k')
  · rw [groupAdd, if_pos hex]
    by_cases hk : k = k'
    · subst hk
      rw [if_pos rfl, alookup_map_adjust m k (fun l => l ++ [e])]
      cases hl : alookup m k with
      | none =>
        exfalso
        have := alookup_isSome_iff_any m k
        rw [hl, hex] at this
        cases this
      | some l0 => simp
    · rw [if_neg hk]
      exact alookup_map_keep m k' k (fun p => p.2 ++ [e]) hk
  · rw [groupAdd, if_neg hex, alookup_append]
    by_cases hk : k = k'
    · subst hk
      rw [if_pos rfl, alookup_none_of_not_any m k hex]
      simp [alookup, Option.orElse]
    · rw [if_neg hk]
      have h1 : (k' == k) = false := by simp [Ne.symm hk]
      cases alookup m k <;> simp [alookup, h1, Option.orElse]

theorem foldGroup_some (pairs : List (String × (String × String))) :
    ∀ (m : List (String × List (String × String))) (k : String)
      (l0 : List (String × String)), alookup m k = some l0 →
      alookup (pairs.foldl (fun m p => groupAdd m p.1 p.2) m) k
        = some (l0 ++ (pairs.filter (fun p => p.1 == k)).map (fun p => p.2)) := by
  induction pairs with
  | nil => intro m k l0 h; simpa using h
  | cons p rest ih =>
    intro m k l0 h
    rw [List.foldl_cons]
    by_cases hpk : p.1 = k
    · have hstep : alookup (groupAdd m p.1 p.2) k = some (l0 ++ [p.2]) := by
        rw [alookup_groupAdd, if_pos hpk.symm, h]
        rfl
      rw [ih (groupAdd m p.1 p.2) k (l0 ++ [p.2]) hstep,
          List.filter_cons_of_pos (by simpa using hpk), List.map_cons,
          List.append_assoc]
      rfl
    · have hstep : alookup (groupAdd m p.1 p.2) k = some l0 := by
        rw [alookup_groupAdd, if_neg (fun he => hpk he.symm)]
        exact h
      rw [ih (groupAdd m p.1 p.2) k l0 hstep,
          List.filter_cons_of_neg (by simpa using hpk)]

theorem foldGroup_none (pairs : List (String × (String × String))) :
    ∀ (m : List (String × List (String × String))) (k : String),
      alookup m k = none →
      alookup (pairs.foldl (fun m p => groupAdd m p.1 p.2) m) k
        = if (pairs.filter (fun p => p.1 == k)) = []
          then none
          else some ((pairs.filter (fun p => p.1 == k)).map (fun p => p.2)) := by
  induction pairs with
  | nil => intro m k h; simpa using h
  | cons p rest ih =>
    intro m k h
    rw [List.foldl_cons]
    by_cases hpk : p.1 = k
    · have hstep : alookup (groupAdd m p.1 p.2) k = some [p.2] := by
        rw [alookup_groupAdd, if_pos hpk.symm, h]
        rfl
      rw [foldGroup_some rest (groupAdd m p.1 p.2) k [p.2] hstep,
          List.filter_cons_of_pos (by simpa using hpk)]
      simp
    · have hstep : alookup (groupAdd m p.1 p.2) k = none := by
        rw [alookup_groupAdd, if_neg (fun he => hpk he.symm)]
        exact h
      rw [ih (groupAdd m p.1 p.2) k hstep,
          List.filter_cons_of_neg (by simpa using hpk)]

theorem groupAdd_keys (m : List (String × List (String × String)))
    (k : String) (e : String × String) :
    (groupAdd m k e).map Prod.fst
      = if m.any (fun p => p.1 == k) then m.map Prod.fst
        else m.map Prod.fst ++ [k] := by
  by_cases hex : m.any (fun p => p.1 == k)
  · rw [groupAdd, if_pos hex, if_pos hex, List.map_map]
    apply List.map_congr_left
    intro p _
    by_cases hpk : p.1 = k
    · simp [hpk]
    · simp [hpk]
  · rw [groupAdd, if_neg hex, if_neg hex]
    simp

theorem foldGroup_keys_nodup (pairs : List (String × (String × String))) :
    ∀ (m : List (String × List (String × String))),
      (m.map Prod.fst).Nodup →
      ((pairs.foldl (fun m p => groupAdd m p.1 p.2) m).map Prod.fst).Nodup := by
  induction pairs with
  | nil => intro m h; exact h
  | cons p rest ih =>
    intro m h
    rw [List.foldl_cons]
    apply ih
    rw [groupAdd_keys]
    by_cases hex : m.any (fun q => q.1 == p.1)
    · rw [if_pos hex]; exact h
    · rw [if_neg hex]
      have hnm : p.1 ∉ m.map Prod.fst := by
        intro hc
        rcases List.mem_map.mp hc with ⟨q, hq, hqe⟩
        exact hex (List.any_eq_true.mpr ⟨q, hq, by simp [hqe]⟩)
      simpa using List.Nodup.append h (List.nodup_singleton p.1)
        (by simpa [List.disjoint_singleton] using hnm)

theorem alookup_of_mem_nodup {α : Type} (m : List (String × α)) (p : String × α)
    (hp : p ∈ m) (hnd : (m.map Prod.fst).Nodup) : alookup m p.1 = some p.2 := by
  induction m with
  | nil => cases hp
  | cons q qs ih =>
    rcases List.mem_cons.mp hp with rfl | hp
    · simp [alookup]
    · rw [List.map_cons] at hnd
      rcases List.nodup_cons.mp hnd with ⟨hq1, hqs⟩
      have hne : q.1 ≠ p.1 := by
        intro he
        exact hq1 (he ▸ List.mem_map.mpr ⟨p, hp, rfl⟩)
      simp only [alookup, beq_iff_eq, if_neg hne]
      exact ih hp hqs

theorem emitContra_fields (c : Case) (g : String × List (String × String))
    (ct : Contradiction) (h : emitContra c g = some ct) :
    ct.ctype = "case_number_inconsistency" ∧ ct.severity = "medium"
      ∧ ct.documents = g.2.map (fun e => e.1) ∧ ct.case_number = g.1 := by
  rw [emitContra] at h
  by_cases h1 : g.2.length > 1
  · rw [if_pos h1] at h
    by_cases h2 : (pydedup (g.2.map (fun e => docTypeByHash c e.2))).length > 1
    · rw [if_pos h2] at h
      cases h
      exact ⟨rfl, rfl, rfl, rfl⟩
    · rw [if_neg h2] at h; cases h
  · rw [if_neg h1] at h; cases h

theorem emitContra_isSome (c : Case) (n : String) (docs : List (String × String)) :
    (emitContra c (n, docs)).isSome
      ↔ 1 < docs.length
          ∧ 1 < (pydedup (docs.map (fun e => docTypeByHash c e.2))).length := by
  rw [emitContra]
  by_cases h1 : docs.length > 1
  · rw [if_pos h1]
    by_cases h2 : (pydedup (docs.map (fun e => docTypeByHash c e.2))).length > 1
    · rw [if_pos h2]
      simpa using ⟨h1, h2⟩
    · rw [if_neg h2]
      simp only [Option.isSome_none, Bool.false_eq_true, false_iff]
      tauto
  · rw [if_neg h1]
    simp only [Option.isSome_none, Bool.false_eq_true, false_iff]
    tauto

theorem count_emitContra (c : Case) (groups : List (String × List (String × String)))
    (hnd : (groups.map Prod.fst).Nodup) (n : String) :
    ((groups.filterMap (emitContra c)).filter (fun ct => ct.case_number == n)).length
      = match alookup groups n with
        | none => 0
        | some docs => if (emitContra c (n, docs)).isSome then 1 else 0 := by
  induction groups with
  | nil => simp [alookup]
  | cons g rest ih =>
    rw [List.map_cons] at hnd
    rcases List.nodup_cons.mp hnd with ⟨hg1, hrest⟩
    have ihr := ih hrest
    by_cases hgn : g.1 = n
    · have hrn : alookup rest n = none := by
        apply alookup_none_of_not_any
        intro hc
        rcases List.any_eq_true.mp hc with ⟨q, hq, hqe⟩
        exact hg1 (hgn ▸ (by simpa using hqe) ▸ List.mem_map.mpr ⟨q, hq, rfl⟩)
      have hcount0 :
          ((rest.filterMap (emitContra c)).filter (fun ct => ct.case_number == n)).length
            = 0 := by
        rw [ihr, hrn]
      have hg : g = (n, g.2) := by
        rw [← hgn]
      have ha : alookup (g :: rest) n = some g.2 := by
        simp [alookup, hgn]
      rw [ha]
      show _ = if (emitContra c (n, g.2)).isSome then 1 else 0
      cases hem : emitContra c g with
      | none =>
        rw [List.filterMap_cons_none hem, hcount0, ← hg, hem]
        rfl
      | some ct =>
        have hcn : ct.case_number = n := hgn ▸ (emitContra_fields c g ct hem).2.2.2
        rw [List.filterMap_cons_some hem,
            List.filter_cons_of_pos (by simpa using hcn), List.length_cons, hcount0,
            ← hg, hem]
        rfl
    · have ha : alookup (g :: rest) n = alookup rest n := by
        simp [alookup, hgn]
      rw [ha]
      cases hem : emitContra c g with
      | none =>
        rw [List.filterMap_cons_none hem, ihr]
      | some ct =>
        have hcn : ct.case_number = g.1 := (emitContra_fields c g ct hem).2.2.2
        rw [List.filterMap_cons_some hem,
            List.filter_cons_of_neg (by simp [hcn, hgn]), ihr]

/-- C4: every contradiction `detect_contradictions` returns is a
medium-severity `case_number_inconsistency` naming exactly the documents that
carry its case number, and for each case-number string the returned list
holds exactly one such contradiction when the string occurs in more than one
document entry with more than one distinct classified type, and none
otherwise. -/
theorem claim_C4_contradictions (c : Case) (n : String) :
    (∀ ct ∈ (detect_contradictions c).1,
        ct.ctype = "case_number_inconsistency" ∧ ct.severity = "medium"
          ∧ ct.documents = (caseNumOccs c ct.case_number).map (fun e => e.1))
      ∧ ((detect_contradictions c).1.filter (fun ct => ct.case_number == n)).length
          = (if 1 < (caseNumOccs c n).length
                ∧ 1 < (pydedup ((caseNumOccs c n).map
                    (fun e => docTypeByHash c e.2))).length
             then 1 else 0) := by
  have hnodup : ((entityGroups c "case_numbers").map Prod.fst).Nodup := by
    rw [entityGroups]
    exact foldGroup_keys_nodup _ [] (by simp)
  have hlookup : ∀ k, alookup (entityGroups c "case_numbers") k
      = if ((entityOccs c "case_numbers").filter (fun p => p.1 == k)) = []
        then none else some (caseNumOccs c k) := by
    intro k
    rw [entityGroups, foldGroup_none _ [] k rfl]
    rfl
  constructor
  · intro ct hct
    have hct' : ct ∈ (entityGroups c "case_numbers").filterMap (emitContra c) := hct
    obtain ⟨g, hg, hem⟩ := List.mem_filterMap.mp hct'
    obtain ⟨hty, hsev, hdocs, hcn⟩ := emitContra_fields c g ct hem
    have hga : alookup (entityGroups c "case_numbers") g.1 = some g.2 :=
      alookup_of_mem_nodup _ g hg hnodup
    rw [hlookup g.1] at hga
    by_cases hf : ((entityOccs c "case_numbers").filter (fun p => p.1 == g.1)) = []
    · rw [if_pos hf] at hga
      cases hga
    · rw [if_neg hf] at hga
      have hg2 : g.2 = caseNumOccs c g.1 := (Option.some.inj hga).symm
      refine ⟨hty, hsev, ?_⟩
      rw [hcn, hdocs, hg2]
  · show (((entityGroups c "case_numbers").filterMap (emitContra c)).filter
        (fun ct => ct.case_number == n)).length = _
    rw [count_emitContra c _ hnodup n, hlookup n]
    by_cases hf : ((entityOccs c "case_numbers").filter (fun p => p.1 == n)) = []
    · rw [if_pos hf]
      have hocc : caseNumOccs c n = [] := by
        rw [caseNumOccs, hf]
        rfl
      rw [if_neg (by rw [hocc]; simp)]
    · rw [if_neg hf]
      show (if (emitContra c (n, caseNumOccs c n)).isSome then 1 else 0) = _
      by_cases hcond : 1 < (caseNumOccs c n).length
          ∧ 1 < (pydedup ((caseNumOccs c n).map (fun e => docTypeByHash c e.2))).length
      · rw [if_pos hcond, if_pos ((emitContra_isSome c n (caseNumOccs c n)).mpr hcond)]
      · rw [if_neg hcond,
            if_neg (fun hs => hcond ((emitContra_isSome c n (caseNumOccs c n)).mp hs))]

/-- Two documents of differing classified types sharing case number `JU-1`. -/
def c4diff : Case :=
  add_document_to_case (add_document_to_case
    (create_case_session "id4" "n" "t0")
    "h1" (some "a.pdf")
    { legal_entities := some [("case_numbers", ["JU-1"])]
      document_type := some "order", potential_violations := none } "t1")
    "h2" (some "b.pdf")
    { legal_entities := some [("case_numbers", ["JU-1"])]
      document_type := some "motion", potential_violations := none } "t2"

/-- Two documents of the same classified type sharing case number `JU-1`. -/
def c4same : Case :=
  add_document_to_case (add_document_to_case
    (create_case_session "id5" "n" "t0")
    "h1" (some "a.pdf")
    { legal_entities := some [("case_numbers", ["JU-1"])]
      document_type := some "order", potential_violations := none } "t1")
    "h2" (some "b.pdf")
    { legal_entities := some [("case_numbers", ["JU-1"])]
      document_type := some "order", potential_violations := none } "t2"

/-- Witness for C4: differing types sharing a case number yield exactly one
contradiction; identical types yield none. -/
theorem claim_C4_contradictions_witness :
    ((detect_contradictions c4diff).1.filter
        (fun ct => ct.case_number == "JU-1")).length = 1
      ∧ ((detect_contradictions c4same).1.filter
          (fun ct => ct.case_number == "JU-1")).length = 0 :=
  ⟨(claim_C4_contradictions c4diff "JU-1").2.trans (by decide),
   (claim_C4_contradictions c4same "JU-1").2.trans (by decide)⟩
